import Mathlib

/-!
# C64 multi-kernal switcher: a shallow embedding of `mcu-files/C64MultiKernel.c`

The program runs on a PIC12F629.  It is embedded here as explicit state passing
over a record `Machine` holding the special function registers the program
touches, the EEPROM, the C globals and a chronological log of the externally
visible effects (EEPROM writes, busy-wait delays, reset-line drive/release and
LED writes).

Conventions.

* `byte` variables are natural numbers; every `++` is followed by `% 256`.
* `GPIO` and `TRISIO` are 8-bit registers with the usual C read-modify-write
  semantics for bit assignments and `|=`.
* Input pins are read from a sample `Pins`, one per pass of the main loop.
  The tests of a pass (`if`/`else if` conditions) read the levels `RESTORE_N`
  and `INTRST_N` of the sample.  In `case IDLE` the source reads `INTRST_N` a
  second time, in the assignment `ignoreReset = !INTRST_N` that follows the
  entry test; that read has its own level `INTRST_N2`, which may differ from
  the first.  `true` is the electrical high level, so a pressed (active-low)
  button reads `false`.
* `enum StateType` has the two values the program ever assigns; the `default:`
  arm of the `switch` therefore has no counterpart.
-/

namespace C64MultiKernel

/-- The `enum StateType {IDLE, SELECT}` of the source. -/
inductive StateType where
  | IDLE
  | SELECT
  deriving DecidableEq, Repr

/-- Externally visible effects, logged in the order in which they happen. -/
inductive Event where
  | eepromWrite (addr val : Nat)
  | delay (ms : Nat)
  | resetLow
  | resetRelease
  | led (lit : Bool)
  deriving DecidableEq, Repr

/-- The pin levels read during one pass (`true` = high = button released):
`RESTORE_N` and `INTRST_N` as read by the tests of the pass, and `INTRST_N2`,
the level of the reset line at its second read in `case IDLE`
(`ignoreReset = !INTRST_N`, source line 134). -/
structure Pins where
  RESTORE_N : Bool
  INTRST_N : Bool
  INTRST_N2 : Bool
  deriving DecidableEq, Repr

/-- Registers, EEPROM, globals and effect log of the running program. -/
structure Machine where
  GPIO : Nat
  TRISIO : Nat
  OPTION_REG : Nat
  WPU : Nat
  CMCON : Nat
  eeprom : Nat → Nat
  state : StateType
  buttonTimer : Nat
  old_button : Nat
  kernalIndex : Nat
  oldKernalIndex : Nat
  ignoreReset : Nat
  redInverted : Nat
  log : List Event

/-- Address `EEPROM_ADDR_KERNAL`. -/
def EEPROM_ADDR_KERNAL : Nat := 0

/-- Address `EEPROM_ADDR_RED_INVERTED`. -/
def EEPROM_ADDR_RED_INVERTED : Nat := 2

/-- Assignment of one bit of an 8-bit register (`REG.Bi = b`). -/
def setPin (port i : Nat) (b : Bool) : Nat :=
  if b then port ||| (1 <<< i) else port &&& (0xFF ^^^ (1 <<< i))

/-- Library routine `EEPROM_Write(addr, val)`. -/
def EEPROM_Write (addr val : Nat) (m : Machine) : Machine :=
  { m with eeprom := Function.update m.eeprom addr val,
           log := m.log ++ [Event.eepromWrite addr val] }

/-- Library routine `EEPROM_Read(addr)`. -/
def EEPROM_Read (addr : Nat) (m : Machine) : Nat :=
  m.eeprom addr

/-- Library routine `Delay_ms(ms)`: a busy wait, visible only in the log. -/
def Delay_ms (ms : Nat) (m : Machine) : Machine :=
  { m with log := m.log ++ [Event.delay ms] }

/-- The assignment `RED_LED = v` (bit 2 of the port). -/
def writeLED (v : Bool) (m : Machine) : Machine :=
  { m with GPIO := setPin m.GPIO 2 v, log := m.log ++ [Event.led v] }

/-- The statement `RED_LED ^= 1`. -/
def toggleLED (m : Machine) : Machine :=
  writeLED (! m.GPIO.testBit 2) m

/-- Source lines 54-63. -/
def SetKernal (index : Nat) (m : Machine) : Machine :=
  -- A13 = A14 = 0;
  let m := { m with GPIO := setPin m.GPIO 5 false }
  let m := { m with GPIO := setPin m.GPIO 4 false }
  -- GPIO |= index << 4;
  let m := { m with GPIO := ( m.GPIO ||| (index <<< 4)) % 256 }
  -- don't write unless necessary
  let m := if index ≠ m.oldKernalIndex then
      { EEPROM_Write EEPROM_ADDR_KERNAL index m with oldKernalIndex := index }
    else m
  Delay_ms 20 m

/-- Source lines 65-74. -/
def DoReset (m : Machine) : Machine :=
  -- INTRST_N = 0;
  let m := { m with GPIO := setPin m.GPIO 1 false }
  -- TRISIO.B1 = 0;  pull INTRES_N low
  let m := { m with TRISIO := setPin m.TRISIO 1 false, log := m.log ++ [Event.resetLow] }
  let m := toggleLED m
  let m := Delay_ms 50 m
  let m := toggleLED m
  let m := Delay_ms 200 m
  -- TRISIO.B1 = 1;  release INTRES_N
  let m := { m with TRISIO := setPin m.TRISIO 1 true, log := m.log ++ [Event.resetRelease] }
  Delay_ms 250 m

/-- Source lines 76-78. -/
def SetLED (m : Machine) : Machine :=
  writeLED
    (xor (decide (0 ≠ m.kernalIndex) && decide (m.redInverted ≠ 0))
         (if m.buttonTimer &&& 2 ≠ 0 then false else true))
    m

/-- The `for (i = 0; i < 10; i++)` loop of `Init`, with `n` passes left. -/
def blinkLoop : Nat → Machine → Machine
  | 0, m => m
  | n + 1, m =>
    let m := writeLED false m
    let m := Delay_ms 50 m
    let m := writeLED true m
    let m := Delay_ms 50 m
    blinkLoop n m

/-- Source lines 80-103. -/
def Init (m : Machine) : Machine :=
  let m := { m with OPTION_REG := 0 }
  let m := { m with WPU := setPin m.WPU 1 true }
  let m := { m with CMCON := 0x07 }
  let m := { m with TRISIO := 0b00001011 }
  -- INTRST_N = 1; RESTORE_N = 1;
  let m := { m with GPIO := setPin m.GPIO 1 true }
  let m := { m with GPIO := setPin m.GPIO 3 true }
  let m := writeLED false m
  -- kernalIndex = oldKernalIndex = EEPROM_Read(EEPROM_ADDR_KERNAL) & 3;
  let m := { m with oldKernalIndex := EEPROM_Read EEPROM_ADDR_KERNAL m &&& 3 }
  let m := { m with kernalIndex := m.oldKernalIndex }
  let m := SetKernal m.kernalIndex m
  let m := { m with redInverted := EEPROM_Read EEPROM_ADDR_RED_INVERTED m &&& 1 }
  let m := DoReset m
  let m := blinkLoop 10 m
  -- ignore reset during power up
  Delay_ms 250 m

/-- The loop `while (!RESTORE_N) Delay_ms(100);` of `main`.  Each pass reads
the pin afresh, so the loop consumes one sample of `RESTORE_N` per pass; it
returns when a sample reads high and yields `none` when the samples end with
the key still held (the program is still waiting). -/
def waitRelease : List Bool → Machine → Option Machine
  | [], _ => none
  | true :: _, m => some m
  | false :: rest, m => waitRelease rest (Delay_ms 100 m)

/-- Source lines 108-116: the colour-theme toggle of `main`.  `restoreN` is the
sample read by the `if`, `polls` are the samples read by the `while`. -/
def themeCheck (restoreN : Bool) (polls : List Bool) (m : Machine) : Option Machine :=
  if !restoreN then
    let m := { m with redInverted := m.redInverted ^^^ 1 }
    let m := EEPROM_Write EEPROM_ADDR_RED_INVERTED m.redInverted m
    waitRelease polls m
  else some m

/-- The `case IDLE:` arm, source lines 122-140.  The entry test of line 128
reads `INTRST_N`; the assignment of line 134 reads the pin again (`INTRST_N2`). -/
def caseIDLE (p : Pins) (m : Machine) : Machine :=
  let m := if !p.RESTORE_N then { m with buttonTimer := (m.buttonTimer + 1) % 256 }
    else { m with buttonTimer := 0 }
  if m.buttonTimer > 15 ∨ (!p.INTRST_N) = true then
    let m := { m with state := StateType.SELECT }
    let m := { m with buttonTimer := 0 }
    let m := { m with old_button := m.buttonTimer }
    -- ignore reset in the select state if it was the reset button
    let m := { m with ignoreReset := if !p.INTRST_N2 then 1 else 0 }
    let m := toggleLED m
    let m := Delay_ms 50 m
    let m := toggleLED m
    Delay_ms 50 m
  else m

/-- The `case SELECT:` arm, source lines 142-166. -/
def caseSELECT (p : Pins) (m : Machine) : Machine :=
  if m.old_button = 0 ∧ p.RESTORE_N = true ∧ p.INTRST_N = true then
    { m with old_button := 1 }
  else if m.old_button ≠ 0 ∧ ((!p.RESTORE_N) = true ∨ (!p.INTRST_N) = true) then
    -- old_button = ignoreReset = 0;  it's ok to reset after this
    let m := { m with ignoreReset := 0 }
    let m := { m with old_button := m.ignoreReset }
    let m := { m with kernalIndex := (m.kernalIndex + 1) % 256 }
    let m := { m with kernalIndex := m.kernalIndex &&& 3 }
    SetKernal m.kernalIndex m
  else if p.RESTORE_N = true ∧ p.INTRST_N = true then
    -- both buttons released
    let m := { m with buttonTimer := (m.buttonTimer + 1) % 256 }
    if m.buttonTimer > 30 then
      -- do the actual reset if needed and go back to idle state
      let m := { m with old_button := 1 }
      let m := if m.ignoreReset = 0 then DoReset m else m
      let m := { m with buttonTimer := 0 }
      { m with state := StateType.IDLE }
    else m
  else
    -- at least one button is pressed
    { m with buttonTimer := 0 }

/-- One pass of the `for (;;)` loop of `main`, source lines 119-173. -/
def tick (p : Pins) (m : Machine) : Machine :=
  let m := SetLED m
  let m := match m.state with
    | StateType.IDLE => caseIDLE p m
    | StateType.SELECT => caseSELECT p m
  Delay_ms 50 m

/-- The main loop run over a finite trace of pin samples, one per pass. -/
def run : List Pins → Machine → Machine
  | [], m => m
  | p :: ps, m => run ps (tick p m)

/-- The machine at power-on: zero-initialised globals, `state = IDLE`, the
given EEPROM contents and port value.  The other registers hold their
power-on reset values; `Init` overwrites each of them before it is used. -/
def powerOn (rom : Nat → Nat) (gpio : Nat) : Machine :=
  { GPIO := gpio, TRISIO := 0x3F, OPTION_REG := 0xFF, WPU := 0x37, CMCON := 0,
    eeprom := rom, state := StateType.IDLE, buttonTimer := 0, old_button := 0,
    kernalIndex := 0, oldKernalIndex := 0, ignoreReset := 0, redInverted := 0,
    log := [] }

/-- Everything `main` does before the main loop: `Init()` and the theme toggle. -/
def startup (rom : Nat → Nat) (gpio : Nat) (restoreN : Bool) (polls : List Bool) :
    Option Machine :=
  themeCheck restoreN polls (Init (powerOn rom gpio))

/-! ## Observations on the effect log -/

/-- Number of reset pulses in a log: the times the reset line was driven low. -/
def resetPulses (log : List Event) : Nat :=
  log.count Event.resetLow

/-- The EEPROM writes of a log as (address, value) pairs, in order. -/
def eepromWrites : List Event → List (Nat × Nat)
  | [] => []
  | Event.eepromWrite a v :: es => (a, v) :: eepromWrites es
  | _ :: es => eepromWrites es

/-- The values written to EEPROM address `addr`, in order. -/
def writesTo (addr : Nat) (log : List Event) : List Nat :=
  ((eepromWrites log).filter (fun w => decide (w.1 = addr))).map Prod.snd

/-! ## Pin samples used in the statements -/

/-- Both buttons released. -/
def released : Pins := { RESTORE_N := true, INTRST_N := true, INTRST_N2 := true }

/-- Restore key held, reset line not asserted. -/
def restoreHeld : Pins := { RESTORE_N := false, INTRST_N := true, INTRST_N2 := true }

/-- Reset button held, restore key released. -/
def resetHeld : Pins := { RESTORE_N := true, INTRST_N := false, INTRST_N2 := false }

/-- Restore released, reset line low at the entry test of `case IDLE` and high
again at the read that sets `ignoreReset`, a few instructions later. -/
def resetGlitch : Pins := { RESTORE_N := true, INTRST_N := false, INTRST_N2 := true }

/-- At least one of the two buttons is pressed in the sample. -/
def Pins.anyPressed (p : Pins) : Prop :=
  p.RESTORE_N = false ∨ p.INTRST_N = false

instance (p : Pins) : Decidable p.anyPressed := by
  unfold Pins.anyPressed; infer_instance

/-- Level of address line `A13` (port bit 4). -/
def A13 (m : Machine) : Bool := Nat.testBit m.GPIO 4

/-- Level of address line `A14` (port bit 5). -/
def A14 (m : Machine) : Bool := Nat.testBit m.GPIO 5

/-- Level of the `RED_LED` output (port bit 2). -/
def RED_LED (m : Machine) : Bool := Nat.testBit m.GPIO 2


/-! ## Sample machines used as concrete inputs -/

/-- The machine when `Init` returns after power-on with an all-zero EEPROM. -/
def bootZero : Machine := Init (powerOn (fun _ => 0) 0)

/-- The machine right after `SELECT` was entered by holding restore for 16 passes. -/
def holdEntry : Machine := run (List.replicate 16 restoreHeld) bootZero

/-- The machine one released pass after `holdEntry`: in `SELECT` with the latch armed. -/
def holdArmed : Machine := tick released holdEntry

/-- The machine after restore has been held for two passes from `bootZero`:
still in `IDLE`, with `buttonTimer = 2`. -/
def idleTwo : Machine := run [restoreHeld, restoreHeld] bootZero

/-- The machine after `SELECT` was entered from `bootZero` through the reset
button and the button was released for one pass: latch armed, `ignoreReset = 1`. -/
def resetArmed : Machine := run [resetHeld, released] bootZero

/-! ## The part of the machine that the control flow reads and writes

`View` forgets the LED bit, the direction register, the configuration
registers and the delay/LED entries of the log.  `viewStep` is `tick` seen
through `view`; `view_tick` below proves that the two agree, so `viewStep` is
a tool of proof only and no statement is about it. -/

/-- Control-relevant projection of a `Machine`. -/
structure View where
  state : StateType
  buttonTimer : Nat
  old_button : Nat
  kernalIndex : Nat
  oldKernalIndex : Nat
  ignoreReset : Nat
  redInverted : Nat
  a13 : Bool
  a14 : Bool
  eeprom : Nat → Nat
  writes : List (Nat × Nat)
  pulses : Nat

/-- Projection of a machine onto its `View`. -/
def view (m : Machine) : View :=
  { state := m.state, buttonTimer := m.buttonTimer, old_button := m.old_button,
    kernalIndex := m.kernalIndex, oldKernalIndex := m.oldKernalIndex,
    ignoreReset := m.ignoreReset, redInverted := m.redInverted,
    a13 := A13 m, a14 := A14 m, eeprom := m.eeprom,
    writes := eepromWrites m.log,
    pulses := resetPulses m.log }

/-- Effect of `SetKernal index` on a `View`. -/
def viewSetKernal (index : Nat) (v : View) : View :=
  { v with
    oldKernalIndex := index
    a13 := index.testBit 0
    a14 := index.testBit 1
    eeprom := if index ≠ v.oldKernalIndex then Function.update v.eeprom 0 index else v.eeprom
    writes := if index ≠ v.oldKernalIndex then v.writes ++ [(0, index)] else v.writes }

/-- Effect of one main-loop pass on a `View`. -/
def viewStep (p : Pins) (v : View) : View :=
  match v.state with
  | StateType.IDLE =>
    let t := if p.RESTORE_N = true then 0 else (v.buttonTimer + 1) % 256
    if t > 15 ∨ p.INTRST_N = false then
      { v with state := StateType.SELECT, buttonTimer := 0, old_button := 0,
               ignoreReset := if p.INTRST_N2 = true then 0 else 1 }
    else { v with buttonTimer := t }
  | StateType.SELECT =>
    if v.old_button = 0 ∧ p.RESTORE_N = true ∧ p.INTRST_N = true then
      { v with old_button := 1 }
    else if v.old_button ≠ 0 ∧ (p.RESTORE_N = false ∨ p.INTRST_N = false) then
      viewSetKernal ((v.kernalIndex + 1) % 256 &&& 3)
        { v with ignoreReset := 0, old_button := 0,
                 kernalIndex := (v.kernalIndex + 1) % 256 &&& 3 }
    else if p.RESTORE_N = true ∧ p.INTRST_N = true then
      if (v.buttonTimer + 1) % 256 > 30 then
        { v with old_button := 1, buttonTimer := 0, state := StateType.IDLE,
                 pulses := if v.ignoreReset = 0 then v.pulses + 1 else v.pulses }
      else { v with buttonTimer := (v.buttonTimer + 1) % 256 }
    else { v with buttonTimer := 0 }

/-- `viewStep` folded over a trace. -/
def viewRun : List Pins → View → View
  | [], v => v
  | p :: ps, v => viewRun ps (viewStep p v)

/-- The view of the machine when `Init` returns. -/
def bootView (rom : Nat → Nat) : View :=
  { state := StateType.IDLE, buttonTimer := 0, old_button := 0,
    kernalIndex := rom 0 % 4, oldKernalIndex := rom 0 % 4, ignoreReset := 0,
    redInverted := rom 2 % 2, a13 := (rom 0 % 4).testBit 0, a14 := (rom 0 % 4).testBit 1,
    eeprom := rom, writes := [], pulses := 1 }

/-- Effect of the theme toggle on a `View`. -/
def viewTheme (restoreN : Bool) (v : View) : View :=
  if restoreN = true then v
  else { v with redInverted := v.redInverted ^^^ 1,
                eeprom := Function.update v.eeprom 2 (v.redInverted ^^^ 1),
                writes := v.writes ++ [(2, v.redInverted ^^^ 1)] }

/-- The bank invariant on a `View`: the index is a 2-bit value, the persisted
copy and the address lines agree with it, and so does EEPROM byte 0 once masked. -/
def viewInv (v : View) : Prop :=
  v.kernalIndex < 4 ∧ v.oldKernalIndex = v.kernalIndex
    ∧ v.a13 = v.kernalIndex.testBit 0 ∧ v.a14 = v.kernalIndex.testBit 1
    ∧ v.eeprom 0 &&& 3 = v.kernalIndex

/-- Effect on a `View` of a press that lasts at least two passes, taken with
the latch armed: one bank advance on the first pass, timer cleared on the second. -/
def viewPress (v : View) : View :=
  { viewSetKernal ((v.kernalIndex + 1) % 4)
      { v with ignoreReset := 0, old_button := 0, kernalIndex := (v.kernalIndex + 1) % 4 } with
    buttonTimer := 0 }

/-- Entering `SELECT` by a restore hold of `16 + a` passes, then three times a
release of `g` passes followed by a press of `p` passes. -/
def threePressTrace (a g0 p1 g1 p2 g2 p3 : Nat) : List Pins :=
  List.replicate (16 + a) restoreHeld
    ++ (List.replicate g0 released ++ List.replicate p1 restoreHeld)
    ++ (List.replicate g1 released ++ List.replicate p2 restoreHeld)
    ++ (List.replicate g2 released ++ List.replicate p3 restoreHeld)

/-- A trace with three one-pass presses of restore separated by 30-pass releases:
hold restore for 16 passes, release for 30, then three times press for one pass
and release (30, 30 and finally 32 passes). -/
def shortPressTrace : List Pins :=
  List.replicate 16 restoreHeld ++ List.replicate 30 released
    ++ [restoreHeld] ++ List.replicate 30 released
    ++ [restoreHeld] ++ List.replicate 30 released
    ++ [restoreHeld] ++ List.replicate 32 released

/-- The log entries of `n` passes of the blink loop of `Init`. -/
def blinkEvents : Nat → List Event
  | 0 => []
  | n + 1 =>
    [Event.led false, Event.delay 50, Event.led true, Event.delay 50] ++ blinkEvents n

/-- The timer bound on a `View`: at most 15 in `IDLE`, at most 30 in `SELECT`. -/
def viewBound (v : View) : Prop :=
  (v.state = StateType.IDLE → v.buttonTimer ≤ 15)
    ∧ (v.state = StateType.SELECT → v.buttonTimer ≤ 30)

/-! ## Bit-level facts -/

theorem testBit_255 (j : Nat) : (255 : Nat).testBit j = decide (j < 8) := by
  simpa using Nat.testBit_two_pow_sub_one 8 j

theorem testBit_setPin (p i j : Nat) (b : Bool) (hi : i < 8) (hj : j < 8) :
    (setPin p i b).testBit j = if j = i then b else p.testBit j := by
  unfold setPin
  cases b
  · by_cases h : j = i
    · subst h
      simp [Nat.testBit_and, Nat.testBit_xor, Nat.one_shiftLeft, Nat.testBit_two_pow, testBit_255, hj]
    · have h2 : ¬ i = j := fun e => h e.symm
      simp [Nat.testBit_and, Nat.testBit_xor, Nat.one_shiftLeft, Nat.testBit_two_pow, testBit_255, hj, h, h2]
  · by_cases h : j = i
    · subst h
      simp [Nat.testBit_or, Nat.one_shiftLeft, Nat.testBit_two_pow]
    · have h2 : ¬ i = j := fun e => h e.symm
      simp [Nat.testBit_or, Nat.one_shiftLeft, Nat.testBit_two_pow, h, h2]

theorem land_three (n : Nat) : n &&& 3 = n % 4 := by
  simpa using Nat.and_pow_two_sub_one_eq_mod n 2

theorem land_one (n : Nat) : n &&& 1 = n % 2 := by
  simp

theorem resetPulses_append (a b : List Event) :
    resetPulses (a ++ b) = resetPulses a + resetPulses b := by
  simp [resetPulses, List.count_append]

theorem eepromWrites_append (a b : List Event) :
    eepromWrites (a ++ b) = eepromWrites a ++ eepromWrites b := by
  induction a with
  | nil => rfl
  | cons e es ih => cases e <;> simp [eepromWrites, ih]

theorem writesTo_append (addr : Nat) (a b : List Event) :
    writesTo addr (a ++ b) = writesTo addr a ++ writesTo addr b := by
  simp [writesTo, eepromWrites_append]

/-! ## `SetKernal` -/

theorem SetKernal_log (index : Nat) (m : Machine) :
    (SetKernal index m).log =
      m.log ++ (if index ≠ m.oldKernalIndex then [Event.eepromWrite 0 index] else [])
        ++ [Event.delay 20] := by
  unfold SetKernal
  by_cases h : index = m.oldKernalIndex <;>
    simp [h, EEPROM_Write, Delay_ms, EEPROM_ADDR_KERNAL]

theorem SetKernal_oldKernalIndex (index : Nat) (m : Machine) :
    (SetKernal index m).oldKernalIndex = index := by
  unfold SetKernal
  by_cases h : index = m.oldKernalIndex <;>
    simp [h, EEPROM_Write, Delay_ms, EEPROM_ADDR_KERNAL]

theorem SetKernal_eeprom (index : Nat) (m : Machine) :
    (SetKernal index m).eeprom =
      if index ≠ m.oldKernalIndex then Function.update m.eeprom 0 index else m.eeprom := by
  unfold SetKernal
  by_cases h : index = m.oldKernalIndex <;>
    simp [h, EEPROM_Write, Delay_ms, EEPROM_ADDR_KERNAL]

theorem SetKernal_port (index : Nat) (m : Machine) :
    Machine.GPIO (SetKernal index m) =
      (setPin (setPin m.GPIO 5 false) 4 false ||| (index <<< 4)) % 256 := by
  unfold SetKernal
  by_cases h : index = m.oldKernalIndex <;>
    simp [h, EEPROM_Write, Delay_ms, EEPROM_ADDR_KERNAL]

theorem SetKernal_testBit (index : Nat) (m : Machine) (j : Nat) (hj : j < 8) :
    Nat.testBit (Machine.GPIO (SetKernal index m)) j =
      ((if j = 4 ∨ j = 5 then false else Nat.testBit m.GPIO j)
        || (decide (4 ≤ j) && index.testBit (j - 4))) := by
  rw [SetKernal_port]
  have h256 : (256 : Nat) = 2 ^ 8 := by norm_num
  rw [h256, Nat.testBit_mod_two_pow, Nat.testBit_or, Nat.testBit_shiftLeft,
    testBit_setPin _ _ _ _ (by norm_num) hj, testBit_setPin _ _ _ _ (by norm_num) hj]
  by_cases h4 : j = 4
  · simp [h4]
  · by_cases h5 : j = 5
    · simp [h5]
    · simp [h4, h5, hj]

/-- C6. `SetKernal(index)` appends to the effect log exactly one EEPROM write
(address 0, value `index`) when `index` differs from `oldKernalIndex` and no
EEPROM write otherwise, followed by the 20 ms settle delay; afterwards
`oldKernalIndex = index`; and calling it twice in a row with the same value
writes address 0 once in total when the value differed from the persisted one
and not at all when it did not. -/
theorem SetKernal_writes_on_change (index : Nat) (m : Machine) :
    (SetKernal index m).log =
        m.log ++ (if index ≠ m.oldKernalIndex then [Event.eepromWrite 0 index] else [])
          ++ [Event.delay 20]
      ∧ writesTo 0 (SetKernal index m).log =
        writesTo 0 m.log ++ (if index ≠ m.oldKernalIndex then [index] else [])
      ∧ (SetKernal index m).eeprom =
        (if index ≠ m.oldKernalIndex then Function.update m.eeprom 0 index else m.eeprom)
      ∧ (SetKernal index m).oldKernalIndex = index
      ∧ (SetKernal index (SetKernal index m)).log =
        (SetKernal index m).log ++ [Event.delay 20]
      ∧ writesTo 0 (SetKernal index (SetKernal index m)).log =
        writesTo 0 m.log ++ (if index ≠ m.oldKernalIndex then [index] else []) := by
  have h1 := SetKernal_log index m
  have h2 := SetKernal_log index (SetKernal index m)
  rw [SetKernal_oldKernalIndex] at h2
  simp only [ne_eq, not_true_eq_false, if_false, List.append_nil] at h2
  have h3 : writesTo 0 (SetKernal index m).log =
      writesTo 0 m.log ++ (if index ≠ m.oldKernalIndex then [index] else []) := by
    rw [h1]
    by_cases h : index = m.oldKernalIndex <;> simp [h, writesTo_append, writesTo, eepromWrites_append, eepromWrites]
  refine ⟨h1, h3, SetKernal_eeprom index m, SetKernal_oldKernalIndex index m, h2, ?_⟩
  rw [h2, writesTo_append, h3]
  simp [writesTo, eepromWrites]

/-- C7. For `index` in 0..3 and any 8-bit port value, after `SetKernal(index)`
line `A13` (port bit 4) is bit 0 of `index`, line `A14` (port bit 5) is bit 1 of
`index`, and every other port bit is as before the call. -/
theorem SetKernal_address_lines (index : Nat) (m : Machine) (hi : index < 4)
    (hp : m.GPIO < 256) :
    A13 (SetKernal index m) = index.testBit 0
      ∧ A14 (SetKernal index m) = index.testBit 1
      ∧ ∀ j, j ≠ 4 → j ≠ 5 →
          Nat.testBit (Machine.GPIO (SetKernal index m)) j = Nat.testBit m.GPIO j := by
  refine ⟨?_, ?_, ?_⟩
  · simp [A13, SetKernal_testBit]
  · simp [A14, SetKernal_testBit]
  · intro j h4 h5
    by_cases hj : j < 8
    · rw [SetKernal_testBit _ _ _ hj]
      have : index.testBit (j - 4) = false ∨ j < 4 := by
        by_cases h : j < 4
        · exact Or.inr h
        · left
          apply Nat.testBit_lt_two_pow
          have : 2 ≤ j - 4 := by omega
          calc index < 2 ^ 2 := by simpa using hi
            _ ≤ 2 ^ (j - 4) := Nat.pow_le_pow_right (by norm_num) this
      rcases this with h | h
      · simp [h4, h5, h]
      · have : ¬ 4 ≤ j := by omega
        simp [h4, h5, this]
    · have h8 : 8 ≤ j := by omega
      have hlt : ∀ x : Nat, x < 256 → x.testBit j = false := by
        intro x hx
        apply Nat.testBit_lt_two_pow
        calc x < 2 ^ 8 := by simpa using hx
          _ ≤ 2 ^ j := Nat.pow_le_pow_right (by norm_num) h8
      rw [hlt _ hp, hlt _ (by rw [SetKernal_port]; exact Nat.mod_lt _ (by norm_num))]

theorem SetKernal_address_lines_witness :
    (2 < 4 ∧ Machine.GPIO bootZero < 256)
      ∧ (A13 (SetKernal 2 bootZero) = Nat.testBit 2 0
        ∧ A14 (SetKernal 2 bootZero) = Nat.testBit 2 1
        ∧ ∀ j, j ≠ 4 → j ≠ 5 →
            Nat.testBit (Machine.GPIO (SetKernal 2 bootZero)) j
              = Nat.testBit (Machine.GPIO bootZero) j) :=
  ⟨by decide, SetKernal_address_lines 2 bootZero (by decide) (by decide)⟩

/-! ## Each operation seen through `view` -/

theorem view_Delay_ms (ms : Nat) (m : Machine) : view (Delay_ms ms m) = view m := by
  simp [view, Delay_ms, writesTo_append, writesTo, eepromWrites_append, eepromWrites, resetPulses_append, resetPulses, A13, A14]

theorem view_writeLED (b : Bool) (m : Machine) : view (writeLED b m) = view m := by
  simp [view, writeLED, writesTo_append, writesTo, eepromWrites_append, eepromWrites, resetPulses_append, resetPulses, A13, A14,
    testBit_setPin]

theorem view_toggleLED (m : Machine) : view (toggleLED m) = view m := by
  simp [toggleLED, view_writeLED]

theorem view_SetLED (m : Machine) : view (SetLED m) = view m := by
  simp [SetLED, view_writeLED]

theorem view_blinkLoop (n : Nat) (m : Machine) : view (blinkLoop n m) = view m := by
  induction n generalizing m with
  | zero => rfl
  | succ n ih => simp [blinkLoop, ih, view_Delay_ms, view_writeLED]

theorem view_DoReset (m : Machine) :
    view (DoReset m) = { view m with pulses := (view m).pulses + 1 } := by
  simp [view, DoReset, Delay_ms, writeLED, toggleLED, writesTo_append, writesTo, eepromWrites_append, eepromWrites,
    resetPulses_append, resetPulses, A13, A14, testBit_setPin]

theorem view_SetKernal (index : Nat) (m : Machine) :
    view (SetKernal index m) = viewSetKernal index (view m) := by
  have h1 := SetKernal_log index m
  have h2 := SetKernal_oldKernalIndex index m
  have h3 := SetKernal_eeprom index m
  have h4 := SetKernal_testBit index m 4 (by norm_num)
  have h5 := SetKernal_testBit index m 5 (by norm_num)
  have hrest : (SetKernal index m).state = m.state
      ∧ (SetKernal index m).buttonTimer = m.buttonTimer
      ∧ (SetKernal index m).old_button = m.old_button
      ∧ (SetKernal index m).kernalIndex = m.kernalIndex
      ∧ (SetKernal index m).ignoreReset = m.ignoreReset
      ∧ (SetKernal index m).redInverted = m.redInverted := by
    unfold SetKernal
    by_cases h : index = m.oldKernalIndex <;>
      simp [h, EEPROM_Write, Delay_ms, EEPROM_ADDR_KERNAL]
  obtain ⟨r1, r2, r3, r4, r5, r6⟩ := hrest
  simp only [view, viewSetKernal, A13, A14, h1, h2, h3, h4, h5, r1, r2, r3, r4, r5, r6]
  by_cases h : index = m.oldKernalIndex <;>
    simp [h, writesTo_append, writesTo, eepromWrites_append, eepromWrites, resetPulses_append, resetPulses]

theorem view_caseIDLE (p : Pins) (m : Machine) (h : m.state = StateType.IDLE) :
    view (caseIDLE p m) = viewStep p (view m) := by
  have hv : (view m).state = StateType.IDLE := h
  obtain ⟨r, i, i2⟩ := p
  unfold caseIDLE viewStep
  simp only [hv]
  cases r <;> cases i <;> cases i2 <;>
    simp [view_Delay_ms, view_toggleLED] <;>
    (try split) <;> (try simp only [view_Delay_ms, view_toggleLED]) <;> simp_all [view, A13, A14]
  all_goals rw [if_neg (by omega)]

theorem view_caseSELECT (p : Pins) (m : Machine) (h : m.state = StateType.SELECT) :
    view (caseSELECT p m) = viewStep p (view m) := by
  have hv : (view m).state = StateType.SELECT := h
  obtain ⟨r, i, i2⟩ := p
  unfold caseSELECT viewStep
  simp only [hv]
  by_cases ho : m.old_button = 0 <;> cases r <;> cases i <;>
    simp [ho, view_SetKernal] <;>
    (try split) <;> (try split) <;>
    simp_all [view, A13, A14, DoReset, Delay_ms, writeLED, toggleLED, writesTo_append, writesTo, eepromWrites_append, eepromWrites,
      resetPulses_append, resetPulses, testBit_setPin, viewSetKernal]
  rw [if_neg (by omega)]

theorem view_tick (p : Pins) (m : Machine) : view (tick p m) = viewStep p (view m) := by
  have hs : (SetLED m).state = m.state := rfl
  unfold tick
  simp only [view_Delay_ms]
  cases h : m.state with
  | IDLE =>
    have := view_caseIDLE p (SetLED m) (hs.trans h)
    simp only [hs, h, this, view_SetLED]
  | SELECT =>
    have := view_caseSELECT p (SetLED m) (hs.trans h)
    simp only [hs, h, this, view_SetLED]

theorem view_run (ps : List Pins) (m : Machine) : view (run ps m) = viewRun ps (view m) := by
  induction ps generalizing m with
  | nil => rfl
  | cons p ps ih => simp [run, viewRun, ih, view_tick]

theorem viewRun_append (ps qs : List Pins) (v : View) :
    viewRun (ps ++ qs) v = viewRun qs (viewRun ps v) := by
  induction ps generalizing v with
  | nil => rfl
  | cons p ps ih => simp [viewRun, ih]

theorem run_append (ps qs : List Pins) (m : Machine) :
    run (ps ++ qs) m = run qs (run ps m) := by
  induction ps generalizing m with
  | nil => rfl
  | cons p ps ih => simp [run, ih]

theorem view_redInverted_update (m : Machine) (r : Nat) :
    view { m with redInverted := r } = { view m with redInverted := r } := rfl

theorem view_Init (rom : Nat → Nat) (gpio : Nat) :
    view (Init (powerOn rom gpio)) = bootView rom := by
  unfold Init
  simp only [view_Delay_ms, view_blinkLoop, view_DoReset, view_redInverted_update,
    view_SetKernal]
  simp [view, viewSetKernal, bootView, powerOn, writeLED, EEPROM_Read, EEPROM_ADDR_KERNAL,
    EEPROM_ADDR_RED_INVERTED, land_three, eepromWrites, resetPulses, A13, A14, testBit_setPin,
    SetKernal_eeprom]

theorem waitRelease_view (polls : List Bool) (m s : Machine)
    (h : waitRelease polls m = some s) : view s = view m := by
  induction polls generalizing m with
  | nil => simp [waitRelease] at h
  | cons b rest ih =>
    cases b with
    | true =>
      simp only [waitRelease, Option.some.injEq] at h
      rw [← h]
    | false =>
      simp only [waitRelease] at h
      rw [ih _ h, view_Delay_ms]

theorem waitRelease_returns (polls : List Bool) (m : Machine) (h : true ∈ polls) :
    ∃ s, waitRelease polls m = some s := by
  induction polls generalizing m with
  | nil => simp at h
  | cons b rest ih =>
    cases b with
    | true => exact ⟨m, rfl⟩
    | false =>
      have h2 : true ∈ rest := by simpa using h
      simpa [waitRelease] using ih (Delay_ms 100 m) h2

theorem themeCheck_view (restoreN : Bool) (polls : List Bool) (m s : Machine)
    (h : themeCheck restoreN polls m = some s) : view s = viewTheme restoreN (view m) := by
  cases restoreN with
  | true =>
    simp only [themeCheck, Bool.not_true, Bool.false_eq_true, if_false, Option.some.injEq] at h
    simp [viewTheme, ← h]
  | false =>
    simp only [themeCheck, Bool.not_false, if_true] at h
    rw [waitRelease_view _ _ _ h]
    simp [viewTheme, view, EEPROM_Write, EEPROM_ADDR_RED_INVERTED, writesTo_append, writesTo, eepromWrites_append, eepromWrites,
      resetPulses_append, resetPulses, A13, A14]

theorem themeCheck_returns (restoreN : Bool) (polls : List Bool) (m : Machine)
    (h : restoreN = false → true ∈ polls) : ∃ s, themeCheck restoreN polls m = some s := by
  cases restoreN with
  | true => exact ⟨m, rfl⟩
  | false =>
    simp only [themeCheck, Bool.not_false, if_true]
    exact waitRelease_returns _ _ (h rfl)

theorem startup_view (rom : Nat → Nat) (gpio : Nat) (restoreN : Bool) (polls : List Bool)
    (s : Machine) (h : startup rom gpio restoreN polls = some s) :
    view s = viewTheme restoreN (bootView rom) := by
  unfold startup at h
  rw [themeCheck_view _ _ _ _ h, view_Init]

/-- C9. Whatever byte the EEPROM holds at address 0 (values above 3 included),
startup returns once the restore key is seen released, with `kernalIndex` and
`oldKernalIndex` both equal to that byte mod 4, the two address lines carrying
that 2-bit value, and no write to EEPROM address 0 performed. -/
theorem startup_loads_bank (rom : Nat → Nat) (gpio : Nat) (restoreN : Bool)
    (polls : List Bool) (hrel : restoreN = false → true ∈ polls) :
    ∃ s, startup rom gpio restoreN polls = some s
      ∧ s.kernalIndex = rom 0 % 4
      ∧ s.oldKernalIndex = rom 0 % 4
      ∧ A13 s = (rom 0 % 4).testBit 0
      ∧ A14 s = (rom 0 % 4).testBit 1
      ∧ writesTo 0 s.log = []
      ∧ s.eeprom 0 = rom 0 := by
  obtain ⟨s, hs⟩ := themeCheck_returns restoreN polls (Init (powerOn rom gpio)) hrel
  have hv := startup_view rom gpio restoreN polls s hs
  refine ⟨s, hs, ?_⟩
  have e1 : s.kernalIndex = (view s).kernalIndex := rfl
  have e2 : s.oldKernalIndex = (view s).oldKernalIndex := rfl
  have e3 : A13 s = (view s).a13 := rfl
  have e4 : A14 s = (view s).a14 := rfl
  have e5 : writesTo 0 s.log =
      (((view s).writes).filter (fun w => decide (w.1 = 0))).map Prod.snd := rfl
  have e6 : s.eeprom = (view s).eeprom := rfl
  rw [e1, e2, e3, e4, e5, e6, hv]
  cases restoreN <;> simp [viewTheme, bootView]

theorem startup_loads_bank_witness :
    ((false = false → true ∈ [false, true])
      ∧ ∃ s, startup (fun _ => 255) 0 false [false, true] = some s
        ∧ s.kernalIndex = (fun _ => 255) 0 % 4
        ∧ s.oldKernalIndex = (fun _ => 255) 0 % 4
        ∧ A13 s = ((fun _ => 255) 0 % 4).testBit 0
        ∧ A14 s = ((fun _ => 255) 0 % 4).testBit 1
        ∧ writesTo 0 s.log = []
        ∧ s.eeprom 0 = (fun _ => 255) 0) :=
  ⟨by decide, startup_loads_bank (fun _ => 255) 0 false [false, true] (by decide)⟩

/-- C10. Whatever byte `t` the EEPROM holds at address 2 and whatever the restore
pin reads at the startup check: startup returns once the key is seen released,
`redInverted` is then `(t and 1)` xor-ed with "restore pressed", EEPROM address 2
has been written exactly once (with the new `redInverted`) when restore was
pressed and not at all when it was not; in the latter case the EEPROM is
untouched and `redInverted = t and 1`. -/
theorem startup_theme_toggle (rom : Nat → Nat) (gpio : Nat) (restoreN : Bool)
    (polls : List Bool) (hrel : restoreN = false → true ∈ polls) :
    ∃ s, startup rom gpio restoreN polls = some s
      ∧ s.redInverted = (rom 2 &&& 1) ^^^ (if restoreN = false then 1 else 0)
      ∧ eepromWrites s.log = (if restoreN = false then [(2, s.redInverted)] else [])
      ∧ writesTo 2 s.log = (if restoreN = false then [s.redInverted] else [])
      ∧ (restoreN = false → s.eeprom 2 = s.redInverted)
      ∧ (restoreN = true → s.eeprom = rom ∧ s.redInverted = rom 2 &&& 1) := by
  obtain ⟨s, hs⟩ := themeCheck_returns restoreN polls (Init (powerOn rom gpio)) hrel
  have hv := startup_view rom gpio restoreN polls s hs
  refine ⟨s, hs, ?_⟩
  have e1 : s.redInverted = (view s).redInverted := rfl
  have e4 : eepromWrites s.log = (view s).writes := rfl
  have e5 : writesTo 2 s.log =
      (((view s).writes).filter (fun w => decide (w.1 = 2))).map Prod.snd := rfl
  have e6 : s.eeprom = (view s).eeprom := rfl
  rw [e1, e4, e5, e6, hv]
  cases restoreN <;> simp [viewTheme, bootView]

theorem startup_theme_toggle_witness :
    ((false = false → true ∈ [false, true])
      ∧ ∃ s, startup (fun _ => 255) 0 false [false, true] = some s
        ∧ s.redInverted = ((fun _ => 255) 2 &&& 1) ^^^ (if false = false then 1 else 0)
        ∧ eepromWrites s.log = (if false = false then [(2, s.redInverted)] else [])
        ∧ writesTo 2 s.log = (if false = false then [s.redInverted] else [])
        ∧ (false = false → s.eeprom 2 = s.redInverted)
        ∧ (false = true → s.eeprom = (fun _ => 255) ∧ s.redInverted = (fun _ => 255) 2 &&& 1)) :=
  ⟨by decide, startup_theme_toggle (fun _ => 255) 0 false [false, true] (by decide)⟩

/-! ## The main loop -/

theorem viewRun_replicate_succ (k : Nat) (p : Pins) (v : View) :
    viewRun (List.replicate (k + 1) p) v = viewStep p (viewRun (List.replicate k p) v) := by
  have h : List.replicate (k + 1) p = List.replicate k p ++ [p] := by
    rw [List.replicate_succ']
  rw [h, viewRun_append]
  rfl

theorem viewRun_idle_hold (k : Nat) (v : View) (hs : v.state = StateType.IDLE)
    (hk : v.buttonTimer + k ≤ 15) :
    viewRun (List.replicate k restoreHeld) v = { v with buttonTimer := v.buttonTimer + k } := by
  induction k with
  | zero => rfl
  | succ k ih =>
    rw [viewRun_replicate_succ, ih (by omega)]
    have h1 : (v.buttonTimer + k + 1) % 256 = v.buttonTimer + (k + 1) := by omega
    have h2 : ¬ v.buttonTimer + (k + 1) > 15 := by omega
    simp [viewStep, hs, restoreHeld, h1, h2]

/-- C1. From `IDLE` with `buttonTimer = 0` and the reset line never asserted:
while restore is held the machine is still in `IDLE` after each of the first 15
passes (with `buttonTimer` counting them) and is in `SELECT` after the 16th;
if restore is held for exactly 15 passes and then released the machine is in
`IDLE` with `buttonTimer = 0`. -/
theorem idle_hold_threshold (m : Machine) (hs : m.state = StateType.IDLE)
    (ht : m.buttonTimer = 0) :
    (∀ k, k ≤ 15 →
        (run (List.replicate k restoreHeld) m).state = StateType.IDLE
          ∧ (run (List.replicate k restoreHeld) m).buttonTimer = k)
      ∧ (run (List.replicate 16 restoreHeld) m).state = StateType.SELECT
      ∧ (run (List.replicate 15 restoreHeld ++ [released]) m).state = StateType.IDLE
      ∧ (run (List.replicate 15 restoreHeld ++ [released]) m).buttonTimer = 0 := by
  have hvs : (view m).state = StateType.IDLE := hs
  have hvt : (view m).buttonTimer = 0 := ht
  have st : ∀ ps, (run ps m).state = (viewRun ps (view m)).state := fun ps => by
    rw [← view_run]; rfl
  have bt : ∀ ps, (run ps m).buttonTimer = (viewRun ps (view m)).buttonTimer := fun ps => by
    rw [← view_run]; rfl
  refine ⟨?_, ?_, ?_, ?_⟩
  · intro k hk
    rw [st, bt, viewRun_idle_hold k _ hvs (by omega)]
    simp [hvs, hvt]
  · rw [st, viewRun_replicate_succ 15, viewRun_idle_hold 15 _ hvs (by omega)]
    simp [viewStep, hvs, hvt, restoreHeld]
  · rw [st, viewRun_append, viewRun_idle_hold 15 _ hvs (by omega)]
    simp [viewRun, viewStep, hvs, released]
  · rw [bt, viewRun_append, viewRun_idle_hold 15 _ hvs (by omega)]
    simp [viewRun, viewStep, hvs, released]

theorem idle_hold_threshold_witness :
    ((Init (powerOn (fun _ => 0) 0)).state = StateType.IDLE
      ∧ (Init (powerOn (fun _ => 0) 0)).buttonTimer = 0)
      ∧ ((∀ k, k ≤ 15 →
        (run (List.replicate k restoreHeld) (Init (powerOn (fun _ => 0) 0))).state
            = StateType.IDLE
          ∧ (run (List.replicate k restoreHeld) (Init (powerOn (fun _ => 0) 0))).buttonTimer
            = k)
      ∧ (run (List.replicate 16 restoreHeld) (Init (powerOn (fun _ => 0) 0))).state
          = StateType.SELECT
      ∧ (run (List.replicate 15 restoreHeld ++ [released]) (Init (powerOn (fun _ => 0) 0))).state
          = StateType.IDLE
      ∧ (run (List.replicate 15 restoreHeld ++ [released])
          (Init (powerOn (fun _ => 0) 0))).buttonTimer = 0) :=
  ⟨⟨by decide, by decide⟩, idle_hold_threshold (Init (powerOn (fun _ => 0) 0)) (by decide) (by decide)⟩

theorem viewStep_arm (v : View) (hs : v.state = StateType.SELECT) (ho : v.old_button = 0) :
    viewStep released v = { v with old_button := 1 } := by
  simp [viewStep, hs, ho, released]

theorem viewStep_advance (p : Pins) (v : View) (hs : v.state = StateType.SELECT)
    (ho : v.old_button ≠ 0) (hp : p.anyPressed) :
    (viewStep p v).state = StateType.SELECT
      ∧ (viewStep p v).old_button = 0
      ∧ (viewStep p v).kernalIndex = (v.kernalIndex + 1) % 4
      ∧ (viewStep p v).ignoreReset = 0
      ∧ (viewStep p v).buttonTimer = v.buttonTimer
      ∧ (viewStep p v).pulses = v.pulses := by
  have hk : (v.kernalIndex + 1) % 256 &&& 3 = (v.kernalIndex + 1) % 4 := by
    rw [land_three]; omega
  obtain ⟨r, i, i2⟩ := p
  simp only [Pins.anyPressed] at hp
  have hne : ¬ (r = true ∧ i = true) := by
    rintro ⟨h1, h2⟩
    rcases hp with h | h
    · rw [h1] at h; exact Bool.noConfusion h
    · rw [h2] at h; exact Bool.noConfusion h
  simp [viewStep, hs, ho, hp, hne, viewSetKernal, hk]

/-- C2. In `SELECT` with `kernalIndex` in 0..3 and the latch armed
(`old_button` non-zero), a pass with at least one button pressed sets
`kernalIndex` to `(old + 1) mod 4`; four such presses, each re-armed by one
released pass, step it through `+1`, `+2`, `+3` and back to its original value,
the machine staying in `SELECT`. -/
theorem select_press_advances (m : Machine) (p1 p2 p3 p4 : Pins)
    (hs : m.state = StateType.SELECT) (hk : m.kernalIndex < 4) (ho : m.old_button ≠ 0)
    (h1 : p1.anyPressed) (h2 : p2.anyPressed) (h3 : p3.anyPressed) (h4 : p4.anyPressed) :
    (tick p1 m).kernalIndex = (m.kernalIndex + 1) % 4
      ∧ (run [p1, released, p2] m).kernalIndex = (m.kernalIndex + 2) % 4
      ∧ (run [p1, released, p2, released, p3] m).kernalIndex = (m.kernalIndex + 3) % 4
      ∧ (run [p1, released, p2, released, p3, released, p4] m).kernalIndex = m.kernalIndex
      ∧ (run [p1, released, p2, released, p3, released, p4] m).state = StateType.SELECT := by
  have hvs : (view m).state = StateType.SELECT := hs
  have hvo : (view m).old_button ≠ 0 := ho
  have hvk : (view m).kernalIndex = m.kernalIndex := rfl
  have st : ∀ ps, (run ps m).state = (viewRun ps (view m)).state := fun ps => by
    rw [← view_run]; rfl
  have ki : ∀ ps, (run ps m).kernalIndex = (viewRun ps (view m)).kernalIndex := fun ps => by
    rw [← view_run]; rfl
  have kt : (tick p1 m).kernalIndex = (viewStep p1 (view m)).kernalIndex := by
    rw [← view_tick]; rfl
  -- one press followed by one release
  have pr : ∀ (p : Pins) (v : View), v.state = StateType.SELECT → v.old_button ≠ 0 →
      p.anyPressed →
      (viewStep released (viewStep p v)).state = StateType.SELECT
        ∧ (viewStep released (viewStep p v)).old_button ≠ 0
        ∧ (viewStep released (viewStep p v)).kernalIndex = (v.kernalIndex + 1) % 4 := by
    intro p v a b c
    obtain ⟨a1, a2, a3, -⟩ := viewStep_advance p v a b c
    rw [viewStep_arm _ a1 a2]
    simp [a1, a3]
  obtain ⟨a1, a2, a3, -⟩ := viewStep_advance p1 (view m) hvs hvo h1
  obtain ⟨b1, b2, b3⟩ := pr p1 (view m) hvs hvo h1
  obtain ⟨c1, c2, c3, -⟩ := viewStep_advance p2 _ b1 b2 h2
  obtain ⟨d1, d2, d3⟩ := pr p2 _ b1 b2 h2
  obtain ⟨e1, e2, e3, -⟩ := viewStep_advance p3 _ d1 d2 h3
  obtain ⟨f1, f2, f3⟩ := pr p3 _ d1 d2 h3
  obtain ⟨g1, g2, g3, -⟩ := viewStep_advance p4 _ f1 f2 h4
  refine ⟨?_, ?_, ?_, ?_, ?_⟩
  · rw [kt, a3, hvk]
  · rw [ki]; simp only [viewRun]; rw [c3, b3, hvk]; omega
  · rw [ki]; simp only [viewRun]; rw [e3, d3, b3, hvk]; omega
  · rw [ki]; simp only [viewRun]; rw [g3, f3, d3, b3, hvk]; omega
  · rw [st]; simp only [viewRun]; exact g1

theorem viewRun_replicate_add (a b : Nat) (p : Pins) (v : View) :
    viewRun (List.replicate (a + b) p) v
      = viewRun (List.replicate b p) (viewRun (List.replicate a p) v) := by
  rw [List.replicate_add, viewRun_append]

theorem viewRun_select_count (k : Nat) (v : View) (hs : v.state = StateType.SELECT)
    (ho : v.old_button ≠ 0) (hk : v.buttonTimer + k ≤ 30) :
    viewRun (List.replicate k released) v = { v with buttonTimer := v.buttonTimer + k } := by
  induction k with
  | zero => rfl
  | succ k ih =>
    rw [viewRun_replicate_succ, ih (by omega)]
    have h1 : (v.buttonTimer + k + 1) % 256 = v.buttonTimer + (k + 1) := by omega
    have h2 : ¬ v.buttonTimer + (k + 1) > 30 := by omega
    simp [viewStep, hs, ho, released, h1, h2]

theorem viewStep_commit (v : View) (hs : v.state = StateType.SELECT)
    (ho : v.old_button ≠ 0) (ht : v.buttonTimer = 30) :
    viewStep released v =
      { v with old_button := 1, buttonTimer := 0, state := StateType.IDLE,
               pulses := if v.ignoreReset = 0 then v.pulses + 1 else v.pulses } := by
  simp [viewStep, hs, ho, released, ht]

theorem viewRun_idle_released (k : Nat) (v : View) (hs : v.state = StateType.IDLE)
    (ht : v.buttonTimer = 0) : viewRun (List.replicate k released) v = v := by
  induction k with
  | zero => rfl
  | succ k ih =>
    rw [viewRun_replicate_succ, ih]
    obtain ⟨s, bt⟩ := v
    simp only at hs ht
    simp [viewStep, hs, released, ht]

theorem viewRun_armed_timeout (v : View) (n : Nat) (hs : v.state = StateType.SELECT)
    (ho : v.old_button ≠ 0) (ht : v.buttonTimer ≤ 30) (hn : 31 ≤ n + v.buttonTimer) :
    viewRun (List.replicate n released) v =
      { v with old_button := 1, buttonTimer := 0, state := StateType.IDLE,
               pulses := if v.ignoreReset = 0 then v.pulses + 1 else v.pulses } := by
  have hsplit : n = (30 - v.buttonTimer) + (1 + (n + v.buttonTimer - 31)) := by omega
  rw [hsplit, viewRun_replicate_add, viewRun_replicate_add,
    viewRun_select_count _ _ hs ho (by omega)]
  have h30 : v.buttonTimer + (30 - v.buttonTimer) = 30 := by omega
  rw [h30]
  have : viewRun (List.replicate 1 released) { v with buttonTimer := 30 }
      = viewStep released { v with buttonTimer := 30 } := rfl
  rw [this, viewStep_commit { v with buttonTimer := 30 } hs ho rfl,
    viewRun_idle_released _ _ rfl rfl]

theorem viewRun_unarmed_timeout (v : View) (n : Nat) (hs : v.state = StateType.SELECT)
    (ho : v.old_button = 0) (ht : v.buttonTimer ≤ 30) (hn : 32 ≤ n + v.buttonTimer) :
    viewRun (List.replicate n released) v =
      { v with old_button := 1, buttonTimer := 0, state := StateType.IDLE,
               pulses := if v.ignoreReset = 0 then v.pulses + 1 else v.pulses } := by
  obtain ⟨k, rfl⟩ : ∃ k, n = k + 1 := ⟨n - 1, by omega⟩
  have h : List.replicate (k + 1) released = released :: List.replicate k released := rfl
  rw [h]
  simp only [viewRun]
  rw [viewStep_arm v hs ho,
    viewRun_armed_timeout { v with old_button := 1 } k hs (by simp) ht (by simp; omega)]

theorem select_press_advances_witness :
    (holdArmed.state = StateType.SELECT ∧ holdArmed.kernalIndex < 4 ∧ holdArmed.old_button ≠ 0
      ∧ restoreHeld.anyPressed ∧ resetHeld.anyPressed)
    ∧ ((tick restoreHeld holdArmed).kernalIndex = (holdArmed.kernalIndex + 1) % 4
      ∧ (run [restoreHeld, released, resetHeld] holdArmed).kernalIndex
          = (holdArmed.kernalIndex + 2) % 4
      ∧ (run [restoreHeld, released, resetHeld, released, restoreHeld] holdArmed).kernalIndex
          = (holdArmed.kernalIndex + 3) % 4
      ∧ (run [restoreHeld, released, resetHeld, released, restoreHeld, released, resetHeld]
          holdArmed).kernalIndex = holdArmed.kernalIndex
      ∧ (run [restoreHeld, released, resetHeld, released, restoreHeld, released, resetHeld]
          holdArmed).state = StateType.SELECT) :=
  ⟨by decide,
    select_press_advances holdArmed restoreHeld resetHeld restoreHeld resetHeld
      (by decide) (by decide) (by decide) (by decide) (by decide) (by decide) (by decide)⟩

/-- C3 as stated fails: right after `SELECT` is entered by a restore hold
(`ignoreReset = 0`), 31 consecutive released passes leave the machine in
`SELECT` with no reset pulse fired. -/
theorem idle_timeout_31_counterexample :
    holdEntry.state = StateType.SELECT
      ∧ holdEntry.ignoreReset = 0
      ∧ (run (List.replicate 31 released) holdEntry).state = StateType.SELECT
      ∧ resetPulses (run (List.replicate 31 released) holdEntry).log
          = resetPulses holdEntry.log := by
  decide!

/-- C3, amended. From any `SELECT` state with `ignoreReset = 0` and
`buttonTimer ≤ 30`, every run of at least 32 consecutive released passes (at
least 31 when the latch is already armed) ends in `IDLE` with exactly one reset
pulse fired during the run. -/
theorem select_idle_timeout (m : Machine) (n : Nat) (hs : m.state = StateType.SELECT)
    (hi : m.ignoreReset = 0) (ht : m.buttonTimer ≤ 30)
    (hn : 32 ≤ n ∨ (m.old_button ≠ 0 ∧ 31 ≤ n)) :
    (run (List.replicate n released) m).state = StateType.IDLE
      ∧ resetPulses (run (List.replicate n released) m).log = resetPulses m.log + 1 := by
  have st : (run (List.replicate n released) m).state
      = (viewRun (List.replicate n released) (view m)).state := by
    rw [← view_run]; rfl
  have pu : resetPulses (run (List.replicate n released) m).log
      = (viewRun (List.replicate n released) (view m)).pulses := by
    rw [← view_run]; rfl
  have hvi : (view m).ignoreReset = 0 := hi
  have hvp : (view m).pulses = resetPulses m.log := rfl
  rw [st, pu]
  by_cases ho : m.old_button = 0
  · have hn2 : 32 ≤ n := by
      rcases hn with h | ⟨h, -⟩
      · exact h
      · exact absurd ho h
    rw [viewRun_unarmed_timeout (view m) n hs ho ht (Nat.le_trans hn2 (Nat.le_add_right _ _))]
    simp [hvi, hvp]
  · have hn2 : 31 ≤ n := by
      rcases hn with h | ⟨-, h⟩
      · omega
      · exact h
    rw [viewRun_armed_timeout (view m) n hs ho ht (Nat.le_trans hn2 (Nat.le_add_right _ _))]
    simp [hvi, hvp]

theorem select_idle_timeout_witness :
    (holdEntry.state = StateType.SELECT ∧ holdEntry.ignoreReset = 0
      ∧ holdEntry.buttonTimer ≤ 30 ∧ (32 ≤ 32 ∨ (holdEntry.old_button ≠ 0 ∧ 31 ≤ 32)))
    ∧ ((run (List.replicate 32 released) holdEntry).state = StateType.IDLE
      ∧ resetPulses (run (List.replicate 32 released) holdEntry).log
          = resetPulses holdEntry.log + 1) :=
  ⟨by decide, select_idle_timeout holdEntry 32 (by decide) (by decide) (by decide) (by decide)⟩

theorem viewStep_reset_entry (e : Pins) (v : View) (hs : v.state = StateType.IDLE)
    (he : e.INTRST_N = false) (he2 : e.INTRST_N2 = false) :
    viewStep e v =
      { v with state := StateType.SELECT, buttonTimer := 0, old_button := 0, ignoreReset := 1 } := by
  simp [viewStep, hs, he, he2]

theorem viewRun_held (held : List Pins) (v : View) (hs : v.state = StateType.SELECT)
    (ho : v.old_button = 0) (ht : v.buttonTimer = 0) (hh : ∀ p ∈ held, p.anyPressed) :
    viewRun held v = v := by
  induction held with
  | nil => rfl
  | cons p ps ih =>
    have hp : p.anyPressed := hh p (List.mem_cons_self _ _)
    have hstep : viewStep p v = v := by
      obtain ⟨r, i, i2⟩ := p
      obtain ⟨s, bt, ob⟩ := v
      simp only at hs ho ht
      simp only [Pins.anyPressed] at hp
      have hne : ¬ (r = true ∧ i = true) := by
        rintro ⟨h1, h2⟩
        rcases hp with h | h
        · rw [h1] at h; exact Bool.noConfusion h
        · rw [h2] at h; exact Bool.noConfusion h
      simp [viewStep, hs, ho, ht, hne]
    simp only [viewRun, hstep]
    exact ih (fun q hq => hh q (List.mem_cons_of_mem _ hq))

theorem viewRun_unarmed_short (v : View) (n : Nat) (hs : v.state = StateType.SELECT)
    (ho : v.old_button = 0) (ht : v.buttonTimer = 0) (hn : n < 32) :
    (viewRun (List.replicate n released) v).state = StateType.SELECT
      ∧ (viewRun (List.replicate n released) v).pulses = v.pulses
      ∧ (viewRun (List.replicate n released) v).kernalIndex = v.kernalIndex := by
  cases n with
  | zero => exact ⟨hs, rfl, rfl⟩
  | succ k =>
    have h : List.replicate (k + 1) released = released :: List.replicate k released := rfl
    rw [h]
    simp only [viewRun]
    rw [viewStep_arm v hs ho,
      viewRun_select_count k { v with old_button := 1 } hs (by simp) (by simp [ht]; omega)]
    exact ⟨hs, rfl, rfl⟩

/-- C4 as stated fails: `SELECT` is entered through the reset button
(`ignoreReset = 1` after the entry pass), the button is released, restore is
pressed once and both buttons are then left released; the machine is still in
`SELECT` 31 released passes later, is back in `IDLE` after the 32nd, and one
reset pulse has fired since the entry. -/
theorem reset_entry_pulse_counterexample :
    bootZero.state = StateType.IDLE
      ∧ (tick resetHeld bootZero).state = StateType.SELECT
      ∧ (tick resetHeld bootZero).ignoreReset = 1
      ∧ (run ([resetHeld, released, restoreHeld] ++ List.replicate 31 released) bootZero).state
          = StateType.SELECT
      ∧ (run ([resetHeld, released, restoreHeld] ++ List.replicate 32 released) bootZero).state
          = StateType.IDLE
      ∧ resetPulses
          (run ([resetHeld, released, restoreHeld] ++ List.replicate 32 released) bootZero).log
          = resetPulses (tick resetHeld bootZero).log + 1 := by
  decide!

/-- C4, amended. When `SELECT` is entered from `IDLE` by a pass on which the
reset line reads asserted both at the entry test and at the read that sets
`ignoreReset`, `ignoreReset` is set; if the buttons are then held for any
number of passes (any combination, at least one pressed in each) and afterwards
both left released, no reset pulse fires and `kernalIndex` does not change,
however long the release lasts, and the machine is back in `IDLE` once 32
released passes have gone by (and not before). -/
theorem reset_entry_suppresses_pulse (m : Machine) (e : Pins) (held : List Pins) (n : Nat)
    (hs : m.state = StateType.IDLE) (he : e.INTRST_N = false) (he2 : e.INTRST_N2 = false)
    (hh : ∀ p ∈ held, p.anyPressed) :
    (tick e m).state = StateType.SELECT
      ∧ (tick e m).ignoreReset = 1
      ∧ resetPulses (run (e :: held ++ List.replicate n released) m).log = resetPulses m.log
      ∧ (run (e :: held ++ List.replicate n released) m).kernalIndex = m.kernalIndex
      ∧ (32 ≤ n → (run (e :: held ++ List.replicate n released) m).state = StateType.IDLE)
      ∧ (n < 32 → (run (e :: held ++ List.replicate n released) m).state = StateType.SELECT) := by
  have hvs : (view m).state = StateType.IDLE := hs
  have hentry := viewStep_reset_entry e (view m) hvs he he2
  have hrun : view (run (e :: held ++ List.replicate n released) m)
      = viewRun (List.replicate n released) (viewStep e (view m)) := by
    rw [view_run, List.cons_append]
    simp only [viewRun]
    rw [viewRun_append, viewRun_held held _ (by rw [hentry]) (by rw [hentry]) (by rw [hentry]) hh]
  have st : (run (e :: held ++ List.replicate n released) m).state
      = (viewRun (List.replicate n released) (viewStep e (view m))).state := by
    rw [← hrun]; rfl
  have pu : resetPulses (run (e :: held ++ List.replicate n released) m).log
      = (viewRun (List.replicate n released) (viewStep e (view m))).pulses := by
    rw [← hrun]; rfl
  have ki : (run (e :: held ++ List.replicate n released) m).kernalIndex
      = (viewRun (List.replicate n released) (viewStep e (view m))).kernalIndex := by
    rw [← hrun]; rfl
  have t1 : (tick e m).state = (viewStep e (view m)).state := by rw [← view_tick]; rfl
  have t2 : (tick e m).ignoreReset = (viewStep e (view m)).ignoreReset := by
    rw [← view_tick]; rfl
  have long : 32 ≤ n → viewRun (List.replicate n released) (viewStep e (view m)) =
      { viewStep e (view m) with old_button := 1, buttonTimer := 0, state := StateType.IDLE } := by
    intro h
    rw [viewRun_unarmed_timeout (viewStep e (view m)) n (by rw [hentry]) (by rw [hentry])
      (by rw [hentry]; exact Nat.zero_le _) (by omega)]
    simp [hentry]
  have short : n < 32 → _ := viewRun_unarmed_short (viewStep e (view m)) n
    (by rw [hentry]) (by rw [hentry]) (by rw [hentry])
  have hp0 : (viewStep e (view m)).pulses = resetPulses m.log := by rw [hentry]; rfl
  have hk0 : (viewStep e (view m)).kernalIndex = m.kernalIndex := by rw [hentry]; rfl
  refine ⟨?_, ?_, ?_, ?_, ?_, ?_⟩
  · rw [t1, hentry]
  · rw [t2, hentry]
  · rw [pu]
    by_cases h : 32 ≤ n
    · rw [long h]; exact hp0
    · rw [(short (by omega)).2.1]; exact hp0
  · rw [ki]
    by_cases h : 32 ≤ n
    · rw [long h]; exact hk0
    · rw [(short (by omega)).2.2]; exact hk0
  · intro h; rw [st, long h]
  · intro h; rw [st]; exact (short h).1

theorem reset_entry_suppresses_pulse_witness :
    (bootZero.state = StateType.IDLE ∧ resetHeld.INTRST_N = false
      ∧ resetHeld.INTRST_N2 = false
      ∧ ∀ p ∈ [resetHeld, restoreHeld], p.anyPressed)
    ∧ ((tick resetHeld bootZero).state = StateType.SELECT
      ∧ (tick resetHeld bootZero).ignoreReset = 1
      ∧ resetPulses (run (resetHeld :: [resetHeld, restoreHeld] ++ List.replicate 40 released)
          bootZero).log = resetPulses bootZero.log
      ∧ (run (resetHeld :: [resetHeld, restoreHeld] ++ List.replicate 40 released)
          bootZero).kernalIndex = bootZero.kernalIndex
      ∧ (32 ≤ 40 → (run (resetHeld :: [resetHeld, restoreHeld] ++ List.replicate 40 released)
          bootZero).state = StateType.IDLE)
      ∧ (40 < 32 → (run (resetHeld :: [resetHeld, restoreHeld] ++ List.replicate 40 released)
          bootZero).state = StateType.SELECT)) :=
  ⟨by decide,
    reset_entry_suppresses_pulse bootZero resetHeld [resetHeld, restoreHeld] 40
      (by decide) (by decide) (by decide) (by decide)⟩

/-- C5 (evaluation at the failing input). Booting with bank 0, entering
`SELECT` by a 16-pass restore hold, releasing for 30 passes and then pressing
restore three times for a single pass each with 30-pass releases in between:
the machine has already committed (one reset pulse, back in `IDLE`) on the third
released pass after the first press, and at the end of the trace it is in
`IDLE` with `kernalIndex = 1`, a single bank write and a single reset pulse
since boot. -/
theorem short_press_commits_early :
    bootZero.kernalIndex = 0
      ∧ (run (List.replicate 16 restoreHeld ++ List.replicate 30 released
            ++ [restoreHeld] ++ List.replicate 2 released) bootZero).state = StateType.SELECT
      ∧ (run (List.replicate 16 restoreHeld ++ List.replicate 30 released
            ++ [restoreHeld] ++ List.replicate 3 released) bootZero).state = StateType.IDLE
      ∧ (run shortPressTrace bootZero).state = StateType.IDLE
      ∧ (run shortPressTrace bootZero).kernalIndex = 1
      ∧ writesTo 0 (run shortPressTrace bootZero).log = [1]
      ∧ resetPulses (run shortPressTrace bootZero).log = resetPulses bootZero.log + 1 := by
  decide!

theorem viewInv_viewStep (p : Pins) (v : View) (h : viewInv v) : viewInv (viewStep p v) := by
  obtain ⟨h1, h2, h3, h4, h5⟩ := h
  have hk : (v.kernalIndex + 1) % 256 &&& 3 < 4 := by rw [land_three]; omega
  have hkk : ((v.kernalIndex + 1) % 256 &&& 3) &&& 3 = (v.kernalIndex + 1) % 256 &&& 3 := by
    rw [land_three ((v.kernalIndex + 1) % 256 &&& 3)]; omega
  have hne : (v.kernalIndex + 1) % 256 &&& 3 ≠ v.oldKernalIndex := by
    rw [land_three, h2]; omega
  unfold viewStep
  cases hs : v.state <;> simp only [] <;> repeat' split
  all_goals first
    | exact ⟨h1, h2, h3, h4, h5⟩
    | simp [viewInv, viewSetKernal, hne, hk, hkk]

theorem viewInv_viewRun (ps : List Pins) (v : View) (h : viewInv v) : viewInv (viewRun ps v) := by
  induction ps generalizing v with
  | nil => exact h
  | cons p ps ih => exact ih _ (viewInv_viewStep p v h)

theorem viewInv_boot (rom : Nat → Nat) (restoreN : Bool) :
    viewInv (viewTheme restoreN (bootView rom)) := by
  have h1 : rom 0 % 4 < 4 := Nat.mod_lt _ (by norm_num)
  cases restoreN <;> simp [viewInv, viewTheme, bootView, land_three, h1]

/-- C8. In every state reached from power-on by startup followed by any number
of main-loop passes (any EEPROM contents, any port value, any pin samples):
`kernalIndex` is in 0..3, `oldKernalIndex = kernalIndex`, the address lines
`A13`/`A14` carry bits 0/1 of `kernalIndex`, and EEPROM byte 0 masked with 3
equals `kernalIndex`; hence `Init` run after a power cycle on the EEPROM of
that state loads the same `kernalIndex`. -/
theorem bank_invariant (rom : Nat → Nat) (gpio : Nat) (restoreN : Bool) (polls : List Bool)
    (s0 : Machine) (trace : List Pins) (h : startup rom gpio restoreN polls = some s0) :
    (run trace s0).kernalIndex < 4
      ∧ (run trace s0).oldKernalIndex = (run trace s0).kernalIndex
      ∧ A13 (run trace s0) = (run trace s0).kernalIndex.testBit 0
      ∧ A14 (run trace s0) = (run trace s0).kernalIndex.testBit 1
      ∧ (run trace s0).eeprom 0 &&& 3 = (run trace s0).kernalIndex
      ∧ ∀ gpio2, (Init (powerOn (run trace s0).eeprom gpio2)).kernalIndex
          = (run trace s0).kernalIndex := by
  have hv : viewInv (view (run trace s0)) := by
    rw [view_run, startup_view rom gpio restoreN polls s0 h]
    exact viewInv_viewRun _ _ (viewInv_boot rom restoreN)
  obtain ⟨h1, h2, h3, h4, h5⟩ := hv
  refine ⟨h1, h2, h3, h4, h5, ?_⟩
  intro gpio2
  have e : (Init (powerOn (run trace s0).eeprom gpio2)).kernalIndex
      = (view (Init (powerOn (run trace s0).eeprom gpio2))).kernalIndex := rfl
  rw [e, view_Init]
  have h6 : (run trace s0).eeprom 0 &&& 3 = (run trace s0).kernalIndex := h5
  rw [land_three] at h6
  exact h6

theorem bank_invariant_witness :
    startup (fun _ => 255) 0 true [] = some (Init (powerOn (fun _ => 255) 0))
    ∧ ((run shortPressTrace (Init (powerOn (fun _ => 255) 0))).kernalIndex < 4
      ∧ (run shortPressTrace (Init (powerOn (fun _ => 255) 0))).oldKernalIndex
          = (run shortPressTrace (Init (powerOn (fun _ => 255) 0))).kernalIndex
      ∧ A13 (run shortPressTrace (Init (powerOn (fun _ => 255) 0)))
          = (run shortPressTrace (Init (powerOn (fun _ => 255) 0))).kernalIndex.testBit 0
      ∧ A14 (run shortPressTrace (Init (powerOn (fun _ => 255) 0)))
          = (run shortPressTrace (Init (powerOn (fun _ => 255) 0))).kernalIndex.testBit 1
      ∧ (run shortPressTrace (Init (powerOn (fun _ => 255) 0))).eeprom 0 &&& 3
          = (run shortPressTrace (Init (powerOn (fun _ => 255) 0))).kernalIndex
      ∧ ∀ gpio2,
          (Init (powerOn (run shortPressTrace (Init (powerOn (fun _ => 255) 0))).eeprom
            gpio2)).kernalIndex
          = (run shortPressTrace (Init (powerOn (fun _ => 255) 0))).kernalIndex) :=
  ⟨rfl, bank_invariant (fun _ => 255) 0 true [] _ shortPressTrace rfl⟩

/-! ## Presses of two or more passes -/

theorem anyPressed_replicate_restoreHeld (a : Nat) :
    ∀ p ∈ List.replicate a restoreHeld, p.anyPressed := by
  intro p hp
  rw [List.eq_of_mem_replicate hp]
  exact Or.inl rfl

theorem viewRun_hold_entry (v : View) (a : Nat) (hs : v.state = StateType.IDLE)
    (ht : v.buttonTimer = 0) :
    viewRun (List.replicate (16 + a) restoreHeld) v =
      { v with state := StateType.SELECT, buttonTimer := 0, old_button := 0, ignoreReset := 0 } := by
  have hsplit : 16 + a = 15 + (1 + a) := by omega
  rw [hsplit, viewRun_replicate_add, viewRun_replicate_add, viewRun_idle_hold 15 v hs (by omega)]
  have h1 : viewRun (List.replicate 1 restoreHeld) { v with buttonTimer := v.buttonTimer + 15 }
      = { v with state := StateType.SELECT, buttonTimer := 0, old_button := 0,
                 ignoreReset := 0 } := by
    simp [viewRun, viewStep, hs, ht, restoreHeld]
  rw [h1]
  exact viewRun_held _ _ rfl rfl rfl (anyPressed_replicate_restoreHeld a)

theorem viewRun_gap (v : View) (g : Nat) (hs : v.state = StateType.SELECT)
    (ho : v.old_button = 0) (ht : v.buttonTimer = 0) (h1 : 1 ≤ g) (h2 : g ≤ 31) :
    viewRun (List.replicate g released) v = { v with old_button := 1, buttonTimer := g - 1 } := by
  obtain ⟨k, rfl⟩ : ∃ k, g = k + 1 := ⟨g - 1, by omega⟩
  have h : List.replicate (k + 1) released = released :: List.replicate k released := rfl
  rw [h]
  simp only [viewRun]
  rw [viewStep_arm v hs ho,
    viewRun_select_count k { v with old_button := 1 } hs (by simp) (by simp [ht]; omega)]
  simp [ht]

theorem viewRun_press (v : View) (p : Nat) (hs : v.state = StateType.SELECT)
    (ho : v.old_button ≠ 0) (hp : 2 ≤ p) :
    viewRun (List.replicate p restoreHeld) v = viewPress v := by
  have hk : (v.kernalIndex + 1) % 256 &&& 3 = (v.kernalIndex + 1) % 4 := by
    rw [land_three]; omega
  have hsplit : p = 1 + (1 + (p - 2)) := by omega
  rw [hsplit, viewRun_replicate_add, viewRun_replicate_add]
  have h1 : viewRun (List.replicate 1 restoreHeld) v
      = viewSetKernal ((v.kernalIndex + 1) % 4)
          { v with ignoreReset := 0, old_button := 0,
                   kernalIndex := (v.kernalIndex + 1) % 4 } := by
    simp [viewRun, viewStep, hs, ho, restoreHeld, hk]
  rw [h1]
  have h2 : viewRun (List.replicate 1 restoreHeld)
      (viewSetKernal ((v.kernalIndex + 1) % 4)
          { v with ignoreReset := 0, old_button := 0,
                   kernalIndex := (v.kernalIndex + 1) % 4 }) = viewPress v := by
    simp [viewRun, viewStep, viewSetKernal, viewPress, hs, restoreHeld]
  rw [h2]
  exact viewRun_held _ _ hs rfl rfl (anyPressed_replicate_restoreHeld _)

theorem viewRun_gap_press (v : View) (g p : Nat) (hs : v.state = StateType.SELECT)
    (ho : v.old_button = 0) (ht : v.buttonTimer = 0) (h1 : 1 ≤ g) (h2 : g ≤ 31) (hp : 2 ≤ p) :
    viewRun (List.replicate p restoreHeld) (viewRun (List.replicate g released) v)
      = viewPress v := by
  rw [viewRun_gap v g hs ho ht h1 h2,
    viewRun_press { v with old_button := 1, buttonTimer := g - 1 } p hs (by simp) hp]
  simp [viewPress, viewSetKernal]

theorem viewPress_spec (v : View) (hs : v.state = StateType.SELECT)
    (hold : v.oldKernalIndex = v.kernalIndex) :
    (viewPress v).state = StateType.SELECT
      ∧ (viewPress v).old_button = 0
      ∧ (viewPress v).buttonTimer = 0
      ∧ (viewPress v).ignoreReset = 0
      ∧ (viewPress v).kernalIndex = (v.kernalIndex + 1) % 4
      ∧ (viewPress v).oldKernalIndex = (viewPress v).kernalIndex
      ∧ (viewPress v).writes = v.writes ++ [(0, (v.kernalIndex + 1) % 4)]
      ∧ (viewPress v).pulses = v.pulses := by
  have hne : (v.kernalIndex + 1) % 4 ≠ v.oldKernalIndex := by rw [hold]; omega
  simp [viewPress, viewSetKernal, hs, hne]

/-- With presses of at least two passes the outcome described by C5 is
obtained. From `IDLE` with `buttonTimer = 0`, `kernalIndex = b` and
`oldKernalIndex = kernalIndex`: hold restore for 16 or more passes, then three
times release for 1..30 passes and press restore for at least two passes. The
machine is then in `SELECT` with exactly three bank writes `b+1`, `b+2`, `b+3`
(mod 4) added and no reset pulse fired; after 32 or more further released
passes it is in `IDLE` with `kernalIndex = (b + 3) mod 4`, the same three bank
writes and exactly one reset pulse. -/
theorem three_long_presses (m : Machine) (a g0 p1 g1 p2 g2 p3 n : Nat)
    (hs : m.state = StateType.IDLE) (ht : m.buttonTimer = 0)
    (hold : m.oldKernalIndex = m.kernalIndex)
    (hg0 : 1 ≤ g0 ∧ g0 ≤ 30) (hg1 : 1 ≤ g1 ∧ g1 ≤ 30) (hg2 : 1 ≤ g2 ∧ g2 ≤ 30)
    (hp1 : 2 ≤ p1) (hp2 : 2 ≤ p2) (hp3 : 2 ≤ p3) (hn : 32 ≤ n) :
    ((run (threePressTrace a g0 p1 g1 p2 g2 p3) m).state = StateType.SELECT
      ∧ resetPulses (run (threePressTrace a g0 p1 g1 p2 g2 p3) m).log = resetPulses m.log
      ∧ eepromWrites (run (threePressTrace a g0 p1 g1 p2 g2 p3) m).log
          = eepromWrites m.log ++ [(0, (m.kernalIndex + 1) % 4), (0, (m.kernalIndex + 2) % 4),
              (0, (m.kernalIndex + 3) % 4)])
    ∧ ((run (threePressTrace a g0 p1 g1 p2 g2 p3 ++ List.replicate n released) m).state
          = StateType.IDLE
      ∧ (run (threePressTrace a g0 p1 g1 p2 g2 p3 ++ List.replicate n released) m).kernalIndex
          = (m.kernalIndex + 3) % 4
      ∧ eepromWrites
          (run (threePressTrace a g0 p1 g1 p2 g2 p3 ++ List.replicate n released) m).log
          = eepromWrites m.log ++ [(0, (m.kernalIndex + 1) % 4), (0, (m.kernalIndex + 2) % 4),
              (0, (m.kernalIndex + 3) % 4)]
      ∧ resetPulses
          (run (threePressTrace a g0 p1 g1 p2 g2 p3 ++ List.replicate n released) m).log
          = resetPulses m.log + 1) := by
  -- the view on entering SELECT
  have hE := viewRun_hold_entry (view m) a hs ht
  obtain ⟨E, hEdef⟩ : ∃ E : View, E = { view m with
      state := StateType.SELECT, buttonTimer := 0, old_button := 0, ignoreReset := 0 } :=
    ⟨_, rfl⟩
  rw [← hEdef] at hE
  have E1 : E.state = StateType.SELECT := by rw [hEdef]
  have E2 : E.old_button = 0 := by rw [hEdef]
  have E3 : E.buttonTimer = 0 := by rw [hEdef]
  have E4 : E.kernalIndex = m.kernalIndex := by rw [hEdef]; rfl
  have E5 : E.oldKernalIndex = E.kernalIndex := by rw [hEdef]; exact hold
  have E6 : E.writes = eepromWrites m.log := by rw [hEdef]; rfl
  have E7 : E.pulses = resetPulses m.log := by rw [hEdef]; rfl
  obtain ⟨a1, a2, a3, -, a5, a6, a7, a8⟩ := viewPress_spec E E1 E5
  obtain ⟨b1, b2, b3, -, b5, b6, b7, b8⟩ := viewPress_spec (viewPress E) a1 a6
  obtain ⟨c1, c2, c3, c4, c5, -, c7, c8⟩ := viewPress_spec (viewPress (viewPress E)) b1 b6
  have hT : viewRun (threePressTrace a g0 p1 g1 p2 g2 p3) (view m)
      = viewPress (viewPress (viewPress E)) := by
    unfold threePressTrace
    simp only [viewRun_append]
    rw [hE,
      viewRun_gap_press E g0 p1 E1 E2 E3 hg0.1 (by omega) hp1,
      viewRun_gap_press _ g1 p2 a1 a2 a3 hg1.1 (by omega) hp2,
      viewRun_gap_press _ g2 p3 b1 b2 b3 hg2.1 (by omega) hp3]
  have hF : viewRun (threePressTrace a g0 p1 g1 p2 g2 p3 ++ List.replicate n released) (view m)
      = { viewPress (viewPress (viewPress E)) with
          old_button := 1, buttonTimer := 0, state := StateType.IDLE,
          pulses := (viewPress (viewPress (viewPress E))).pulses + 1 } := by
    rw [viewRun_append, hT,
      viewRun_unarmed_timeout _ n c1 c2 (by rw [c3]; exact Nat.zero_le _) (by omega)]
    simp [c4]
  have k3 : (viewPress (viewPress (viewPress E))).kernalIndex = (m.kernalIndex + 3) % 4 := by
    rw [c5, b5, a5, E4]; omega
  have w3 : (viewPress (viewPress (viewPress E))).writes
      = eepromWrites m.log ++ [(0, (m.kernalIndex + 1) % 4), (0, (m.kernalIndex + 2) % 4),
          (0, (m.kernalIndex + 3) % 4)] := by
    have x1 : (E.kernalIndex + 1) % 4 = (m.kernalIndex + 1) % 4 := by rw [E4]
    have x2 : ((viewPress E).kernalIndex + 1) % 4 = (m.kernalIndex + 2) % 4 := by
      rw [a5, E4]; omega
    have x3 : ((viewPress (viewPress E)).kernalIndex + 1) % 4 = (m.kernalIndex + 3) % 4 := by
      rw [b5, a5, E4]; omega
    rw [c7, b7, a7, E6, x1, x2, x3]
    simp
  have q3 : (viewPress (viewPress (viewPress E))).pulses = resetPulses m.log := by
    rw [c8, b8, a8, E7]
  have vT := view_run (threePressTrace a g0 p1 g1 p2 g2 p3) m
  have vF := view_run (threePressTrace a g0 p1 g1 p2 g2 p3 ++ List.replicate n released) m
  rw [hT] at vT
  rw [hF] at vF
  refine ⟨⟨?_, ?_, ?_⟩, ?_, ?_, ?_, ?_⟩
  · exact (congrArg View.state vT).trans c1
  · exact (congrArg View.pulses vT).trans q3
  · exact (congrArg View.writes vT).trans w3
  · exact congrArg View.state vF
  · exact (congrArg View.kernalIndex vF).trans k3
  · exact (congrArg View.writes vF).trans w3
  · have := congrArg View.pulses vF
    simp only [] at this
    exact this.trans (by rw [q3])

theorem three_long_presses_witness :
    (bootZero.state = StateType.IDLE ∧ bootZero.buttonTimer = 0
      ∧ bootZero.oldKernalIndex = bootZero.kernalIndex)
    ∧ (run (threePressTrace 0 30 2 30 2 30 2 ++ List.replicate 32 released) bootZero).kernalIndex
        = (bootZero.kernalIndex + 3) % 4 :=
  ⟨by decide,
    (three_long_presses bootZero 0 30 2 30 2 30 2 32 (by decide) (by decide) (by decide)
      (by decide) (by decide) (by decide) (by decide) (by decide) (by decide)
      (by decide)).2.2.1⟩

/-! ## The reset pulse -/

/-- C12 as stated fails: with restore held at the check (and seen released at
the second poll) the EEPROM write of the theme toggle is logged after the reset
pulse, the ten blinks and the final 250 ms wait of `Init`, not between the
reset pulse and the blinks. -/
theorem theme_check_order_counterexample :
    (startup (fun _ => 0) 0 false [false, true]).map Machine.log =
      some ([Event.led false, Event.delay 20,
          Event.resetLow, Event.led true, Event.delay 50, Event.led false, Event.delay 200,
          Event.resetRelease, Event.delay 250]
        ++ blinkEvents 10
        ++ [Event.delay 250, Event.eepromWrite 2 1, Event.delay 100]) := by
  decide!

theorem RED_LED_SetLED (m : Machine) :
    RED_LED (SetLED m) =
      xor (decide (0 ≠ m.kernalIndex) && decide (m.redInverted ≠ 0))
        (if m.buttonTimer &&& 2 ≠ 0 then false else true) := by
  simp [SetLED, writeLED, RED_LED, testBit_setPin]

/-- C13 as stated fails: `bootZero` and `idleTwo` agree on `kernalIndex`, on
`redInverted` and on the parity of `buttonTimer` (0 and 2), yet `SetLED` turns
the LED on in the first and off in the second. -/
theorem led_parity_counterexample :
    bootZero.kernalIndex = idleTwo.kernalIndex
      ∧ bootZero.redInverted = idleTwo.redInverted
      ∧ bootZero.buttonTimer % 2 = idleTwo.buttonTimer % 2
      ∧ RED_LED (SetLED bootZero) = true
      ∧ RED_LED (SetLED idleTwo) = false := by
  decide!

/-- C13, amended. The indicator value computed by `SetLED` is a function of
`kernalIndex`, `redInverted` and bit 1 of `buttonTimer` (the value of
`buttonTimer & 2`): two states that agree on these three get the same LED
output, both on the pin and in the log entry. -/
theorem SetLED_depends_on (m1 m2 : Machine) (hk : m1.kernalIndex = m2.kernalIndex)
    (hr : m1.redInverted = m2.redInverted)
    (hb : m1.buttonTimer &&& 2 = m2.buttonTimer &&& 2) :
    RED_LED (SetLED m1) = RED_LED (SetLED m2)
      ∧ (SetLED m1).log = m1.log ++ [Event.led (RED_LED (SetLED m1))]
      ∧ (SetLED m2).log = m2.log ++ [Event.led (RED_LED (SetLED m1))] := by
  have h12 : RED_LED (SetLED m1) = RED_LED (SetLED m2) := by
    rw [RED_LED_SetLED, RED_LED_SetLED, hk, hr, hb]
  refine ⟨h12, ?_, ?_⟩
  · rw [RED_LED_SetLED]; rfl
  · rw [h12, RED_LED_SetLED]; rfl

theorem SetLED_depends_on_witness :
    (bootZero.kernalIndex = holdEntry.kernalIndex
      ∧ bootZero.redInverted = holdEntry.redInverted
      ∧ bootZero.buttonTimer &&& 2 = holdEntry.buttonTimer &&& 2)
    ∧ (RED_LED (SetLED bootZero) = RED_LED (SetLED holdEntry)
      ∧ (SetLED bootZero).log = bootZero.log ++ [Event.led (RED_LED (SetLED bootZero))]
      ∧ (SetLED holdEntry).log = holdEntry.log ++ [Event.led (RED_LED (SetLED bootZero))]) :=
  ⟨by decide, SetLED_depends_on bootZero holdEntry (by decide) (by decide) (by decide)⟩

/-! ## Further properties of the main loop -/

/-- C14 (evaluation at the failing input). After a 16-pass restore hold and 30
released passes the machine is in `SELECT`; restore is then pressed for one
pass. Two released passes later the machine is still in `SELECT`, and on the
third released pass it commits: it is in `IDLE` and one more reset pulse has
fired, although a button was pressed three passes earlier. -/
theorem commit_three_passes_after_press :
    (run (List.replicate 16 restoreHeld ++ List.replicate 30 released) bootZero).state
        = StateType.SELECT
      ∧ restoreHeld.anyPressed
      ∧ (run (List.replicate 16 restoreHeld ++ List.replicate 30 released
            ++ [restoreHeld, released, released]) bootZero).state = StateType.SELECT
      ∧ (run (List.replicate 16 restoreHeld ++ List.replicate 30 released
            ++ [restoreHeld, released, released, released]) bootZero).state = StateType.IDLE
      ∧ resetPulses (run (List.replicate 16 restoreHeld ++ List.replicate 30 released
            ++ [restoreHeld, released, released, released]) bootZero).log
          = resetPulses (run (List.replicate 16 restoreHeld ++ List.replicate 30 released
            ++ [restoreHeld, released, released]) bootZero).log + 1 := by
  decide!

theorem viewStep_idle (p : Pins) (v : View) (hs : v.state = StateType.IDLE) :
    viewStep p v =
      if p.INTRST_N = false ∨ (p.RESTORE_N = false ∧ (v.buttonTimer + 1) % 256 > 15) then
        { v with state := StateType.SELECT, buttonTimer := 0, old_button := 0,
                 ignoreReset := if p.INTRST_N2 = false then 1 else 0 }
      else
        { v with buttonTimer := if p.RESTORE_N = false then (v.buttonTimer + 1) % 256 else 0 } := by
  obtain ⟨r, i, i2⟩ := p
  cases r <;> cases i <;> cases i2 <;> simp [viewStep, hs]

/-- Entry into `SELECT` from `IDLE`, general form. A pass on which the reset
line reads asserted at the entry test ends in `SELECT`; the machine leaves
`IDLE` exactly when the line reads asserted there or restore is held with the
incremented timer above 15; and whenever a pass takes the machine from `IDLE`
to `SELECT`, it ends with `buttonTimer = 0`, `old_button = 0` and `ignoreReset`
equal to the negated level of the reset line at its second read in that pass. -/
theorem idle_to_select_entry (m : Machine) (p : Pins) (hs : m.state = StateType.IDLE) :
    (p.INTRST_N = false → (tick p m).state = StateType.SELECT)
      ∧ ((tick p m).state = StateType.SELECT ↔
          (p.INTRST_N = false ∨ (p.RESTORE_N = false ∧ (m.buttonTimer + 1) % 256 > 15)))
      ∧ ((tick p m).state = StateType.SELECT →
          (tick p m).buttonTimer = 0 ∧ (tick p m).old_button = 0
            ∧ (tick p m).ignoreReset = if p.INTRST_N2 = false then 1 else 0) := by
  have hv := view_tick p m
  rw [viewStep_idle p (view m) hs] at hv
  have e1 : (tick p m).state = (view (tick p m)).state := rfl
  have e2 : (tick p m).buttonTimer = (view (tick p m)).buttonTimer := rfl
  have e3 : (tick p m).old_button = (view (tick p m)).old_button := rfl
  have e4 : (tick p m).ignoreReset = (view (tick p m)).ignoreReset := rfl
  have hvs : (view m).state = StateType.IDLE := hs
  have hvt : (view m).buttonTimer = m.buttonTimer := rfl
  rw [e1, e2, e3, e4, hv, hvt]
  by_cases hc : p.INTRST_N = false ∨ (p.RESTORE_N = false ∧ (m.buttonTimer + 1) % 256 > 15)
  · rw [if_pos hc]
    exact ⟨fun _ => rfl, ⟨fun _ => hc, fun _ => rfl⟩, fun _ => ⟨rfl, rfl, rfl⟩⟩
  · rw [if_neg hc]
    have hne : ({ view m with buttonTimer :=
        if p.RESTORE_N = false then (m.buttonTimer + 1) % 256 else 0 } : View).state
        ≠ StateType.SELECT := by
      show (view m).state ≠ StateType.SELECT
      rw [hvs]; decide
    exact ⟨fun h => absurd (Or.inl h) hc, ⟨fun h => absurd h hne, fun h => absurd h hc⟩,
      fun h => absurd h hne⟩

theorem idle_to_select_entry_witness :
    bootZero.state = StateType.IDLE
    ∧ ((resetHeld.INTRST_N = false → (tick resetHeld bootZero).state = StateType.SELECT)
      ∧ ((tick resetHeld bootZero).state = StateType.SELECT ↔
          (resetHeld.INTRST_N = false
            ∨ (resetHeld.RESTORE_N = false ∧ (bootZero.buttonTimer + 1) % 256 > 15)))
      ∧ ((tick resetHeld bootZero).state = StateType.SELECT →
          (tick resetHeld bootZero).buttonTimer = 0 ∧ (tick resetHeld bootZero).old_button = 0
            ∧ (tick resetHeld bootZero).ignoreReset
                = if resetHeld.INTRST_N2 = false then 1 else 0)) :=
  ⟨by decide, idle_to_select_entry bootZero resetHeld (by decide)⟩

/-- C15 (evaluation at the failing input). From `IDLE` after boot, a pass on
which the reset line reads asserted at the entry test and released again at
the read that sets `ignoreReset` (restore released throughout) takes the
machine to `SELECT` with `buttonTimer = 0` and `old_button = 0` but with
`ignoreReset = 0`, although the entry was through the reset line; when both
buttons then stay released the commit on the 32nd pass fires a reset pulse. -/
theorem reset_glitch_entry :
    bootZero.state = StateType.IDLE
      ∧ resetGlitch.INTRST_N = false
      ∧ resetGlitch.RESTORE_N = true
      ∧ (tick resetGlitch bootZero).state = StateType.SELECT
      ∧ (tick resetGlitch bootZero).buttonTimer = 0
      ∧ (tick resetGlitch bootZero).old_button = 0
      ∧ (tick resetGlitch bootZero).ignoreReset = 0
      ∧ (run (resetGlitch :: List.replicate 32 released) bootZero).state = StateType.IDLE
      ∧ resetPulses (run (resetGlitch :: List.replicate 32 released) bootZero).log
          = resetPulses bootZero.log + 1 := by
  decide!

theorem not_released_of_anyPressed (p : Pins) (hp : p.anyPressed) :
    ¬ (p.RESTORE_N = true ∧ p.INTRST_N = true) := by
  rintro ⟨h1, h2⟩
  rcases hp with h | h
  · rw [h1] at h; exact Bool.noConfusion h
  · rw [h2] at h; exact Bool.noConfusion h

theorem viewStep_held (p : Pins) (v : View) (hs : v.state = StateType.SELECT)
    (ho : v.old_button = 0) (hp : p.anyPressed) :
    viewStep p v = { v with buttonTimer := 0 } := by
  have hne := not_released_of_anyPressed p hp
  simp [viewStep, hs, ho, hne]

theorem viewRun_held_frame (held : List Pins) (v : View) (hs : v.state = StateType.SELECT)
    (ho : v.old_button = 0) (hh : ∀ p ∈ held, p.anyPressed) :
    ∃ t, viewRun held v = { v with buttonTimer := t } := by
  induction held generalizing v with
  | nil => exact ⟨v.buttonTimer, rfl⟩
  | cons p ps ih =>
    have hp : p.anyPressed := hh p (List.mem_cons_self _ _)
    obtain ⟨t, ht⟩ := ih { v with buttonTimer := 0 } hs ho
      (fun q hq => hh q (List.mem_cons_of_mem _ hq))
    refine ⟨t, ?_⟩
    simp only [viewRun]
    rw [viewStep_held p v hs ho hp, ht]

theorem viewStep_advance_eq (p : Pins) (v : View) (hs : v.state = StateType.SELECT)
    (ho : v.old_button ≠ 0) (hp : p.anyPressed) :
    viewStep p v =
      viewSetKernal ((v.kernalIndex + 1) % 4)
        { v with ignoreReset := 0, old_button := 0, kernalIndex := (v.kernalIndex + 1) % 4 } := by
  have hk : (v.kernalIndex + 1) % 256 &&& 3 = (v.kernalIndex + 1) % 4 := by
    rw [land_three]; omega
  have hne := not_released_of_anyPressed p hp
  have hp2 : p.RESTORE_N = false ∨ p.INTRST_N = false := hp
  simp [viewStep, hs, ho, hne, hp2, hk]

/-- C16. In `SELECT` with the latch cleared (`old_button = 0`), a run of passes
with at least one button pressed in each leaves `kernalIndex`, the EEPROM, the
address lines and the state unchanged, writes nothing to the EEPROM, fires no
reset pulse and keeps the latch cleared. Hence the passes on which the buttons
stay pressed after the pass that entered `SELECT` do not advance the bank, and
a press held over several passes with the latch armed advances it once, on its
first pass. -/
theorem latch_blocks_held_press (m : Machine) (p : Pins) (held : List Pins)
    (hh : ∀ q ∈ held, q.anyPressed) :
    (m.state = StateType.SELECT → m.old_button = 0 →
        (run held m).state = StateType.SELECT
          ∧ (run held m).kernalIndex = m.kernalIndex
          ∧ (run held m).eeprom = m.eeprom
          ∧ A13 (run held m) = A13 m ∧ A14 (run held m) = A14 m
          ∧ eepromWrites (run held m).log = eepromWrites m.log
          ∧ resetPulses (run held m).log = resetPulses m.log
          ∧ (run held m).old_button = 0)
      ∧ (m.state = StateType.IDLE → (tick p m).state = StateType.SELECT →
          (run (p :: held) m).state = StateType.SELECT
            ∧ (run (p :: held) m).kernalIndex = m.kernalIndex
            ∧ eepromWrites (run (p :: held) m).log = eepromWrites m.log
            ∧ resetPulses (run (p :: held) m).log = resetPulses m.log)
      ∧ (m.state = StateType.SELECT → m.old_button ≠ 0 → p.anyPressed →
          (run (p :: held) m).state = StateType.SELECT
            ∧ (run (p :: held) m).kernalIndex = (m.kernalIndex + 1) % 4
            ∧ eepromWrites (run (p :: held) m).log = eepromWrites (tick p m).log
            ∧ resetPulses (run (p :: held) m).log = resetPulses m.log) := by
  -- the frame property, for any machine in SELECT with the latch cleared
  have frame : ∀ x : Machine, x.state = StateType.SELECT → x.old_button = 0 →
      view (run held x) = { view x with buttonTimer := (view (run held x)).buttonTimer } := by
    intro x hs ho
    obtain ⟨t, ht⟩ := viewRun_held_frame held (view x) hs ho hh
    rw [view_run, ht]
  refine ⟨?_, ?_, ?_⟩
  · intro hs ho
    have h := frame m hs ho
    exact ⟨(congrArg View.state h).trans hs, congrArg View.kernalIndex h,
      congrArg View.eeprom h, congrArg View.a13 h, congrArg View.a14 h,
      congrArg View.writes h, congrArg View.pulses h, (congrArg View.old_button h).trans ho⟩
  · intro hs hsel
    have hv := view_tick p m
    rw [viewStep_idle p (view m) hs] at hv
    have hc : p.INTRST_N = false ∨ (p.RESTORE_N = false ∧ ((view m).buttonTimer + 1) % 256 > 15) := by
      by_contra hc
      rw [if_neg hc] at hv
      have h1 : (tick p m).state = m.state := congrArg View.state hv
      rw [hsel, hs] at h1
      exact StateType.noConfusion h1
    rw [if_pos hc] at hv
    have h := frame (tick p m) hsel (congrArg View.old_button hv)
    have hr : run (p :: held) m = run held (tick p m) := rfl
    rw [hr]
    exact ⟨(congrArg View.state h).trans hsel,
      (congrArg View.kernalIndex h).trans (congrArg View.kernalIndex hv),
      (congrArg View.writes h).trans (congrArg View.writes hv),
      (congrArg View.pulses h).trans (congrArg View.pulses hv)⟩
  · intro hs ho hp
    have hv := view_tick p m
    rw [viewStep_advance_eq p (view m) hs ho hp] at hv
    have hsel : (tick p m).state = StateType.SELECT := (congrArg View.state hv).trans hs
    have h := frame (tick p m) hsel (congrArg View.old_button hv)
    have hr : run (p :: held) m = run held (tick p m) := rfl
    rw [hr]
    exact ⟨(congrArg View.state h).trans hsel,
      (congrArg View.kernalIndex h).trans (congrArg View.kernalIndex hv),
      congrArg View.writes h,
      (congrArg View.pulses h).trans (congrArg View.pulses hv)⟩

theorem latch_blocks_held_press_witness :
    (∀ q ∈ [restoreHeld, resetHeld], q.anyPressed)
    ∧ ((holdEntry.state = StateType.SELECT → holdEntry.old_button = 0 →
        (run [restoreHeld, resetHeld] holdEntry).state = StateType.SELECT
          ∧ (run [restoreHeld, resetHeld] holdEntry).kernalIndex = holdEntry.kernalIndex
          ∧ (run [restoreHeld, resetHeld] holdEntry).eeprom = holdEntry.eeprom
          ∧ A13 (run [restoreHeld, resetHeld] holdEntry) = A13 holdEntry
          ∧ A14 (run [restoreHeld, resetHeld] holdEntry) = A14 holdEntry
          ∧ eepromWrites (run [restoreHeld, resetHeld] holdEntry).log
              = eepromWrites holdEntry.log
          ∧ resetPulses (run [restoreHeld, resetHeld] holdEntry).log
              = resetPulses holdEntry.log
          ∧ (run [restoreHeld, resetHeld] holdEntry).old_button = 0)
      ∧ (holdEntry.state = StateType.IDLE →
          (tick restoreHeld holdEntry).state = StateType.SELECT →
          (run (restoreHeld :: [restoreHeld, resetHeld]) holdEntry).state = StateType.SELECT
            ∧ (run (restoreHeld :: [restoreHeld, resetHeld]) holdEntry).kernalIndex
                = holdEntry.kernalIndex
            ∧ eepromWrites (run (restoreHeld :: [restoreHeld, resetHeld]) holdEntry).log
                = eepromWrites holdEntry.log
            ∧ resetPulses (run (restoreHeld :: [restoreHeld, resetHeld]) holdEntry).log
                = resetPulses holdEntry.log)
      ∧ (holdEntry.state = StateType.SELECT → holdEntry.old_button ≠ 0 →
          restoreHeld.anyPressed →
          (run (restoreHeld :: [restoreHeld, resetHeld]) holdEntry).state = StateType.SELECT
            ∧ (run (restoreHeld :: [restoreHeld, resetHeld]) holdEntry).kernalIndex
                = (holdEntry.kernalIndex + 1) % 4
            ∧ eepromWrites (run (restoreHeld :: [restoreHeld, resetHeld]) holdEntry).log
                = eepromWrites (tick restoreHeld holdEntry).log
            ∧ resetPulses (run (restoreHeld :: [restoreHeld, resetHeld]) holdEntry).log
                = resetPulses holdEntry.log)) :=
  ⟨by decide, latch_blocks_held_press holdEntry restoreHeld [restoreHeld, resetHeld] (by decide)⟩

/-- C17. In `SELECT` with the latch armed, a pass on which only the reset
button is pressed (restore released) sets `kernalIndex` to `(old + 1) mod 4`
and clears `ignoreReset`, whatever `ignoreReset` was; if both buttons are then
left released (with `buttonTimer ≤ 30` at the press), the machine is back in
`IDLE` after 32 or more released passes and exactly one reset pulse has fired. -/
theorem reset_button_press_advances (m : Machine) (n : Nat)
    (hs : m.state = StateType.SELECT) (ho : m.old_button ≠ 0) :
    (tick resetHeld m).state = StateType.SELECT
      ∧ (tick resetHeld m).kernalIndex = (m.kernalIndex + 1) % 4
      ∧ (tick resetHeld m).ignoreReset = 0
      ∧ resetPulses (tick resetHeld m).log = resetPulses m.log
      ∧ (m.buttonTimer ≤ 30 → 32 ≤ n →
          (run (resetHeld :: List.replicate n released) m).state = StateType.IDLE
            ∧ (run (resetHeld :: List.replicate n released) m).kernalIndex
                = (m.kernalIndex + 1) % 4
            ∧ resetPulses (run (resetHeld :: List.replicate n released) m).log
                = resetPulses m.log + 1) := by
  have hp : resetHeld.anyPressed := Or.inr rfl
  have hv := view_tick resetHeld m
  rw [viewStep_advance_eq resetHeld (view m) hs ho hp] at hv
  refine ⟨(congrArg View.state hv).trans hs, congrArg View.kernalIndex hv,
    congrArg View.ignoreReset hv, congrArg View.pulses hv, ?_⟩
  intro ht hn
  have hr : view (run (resetHeld :: List.replicate n released) m)
      = viewRun (List.replicate n released) (view (tick resetHeld m)) := by
    rw [← view_run]; rfl
  have hto := viewRun_unarmed_timeout (view (tick resetHeld m)) n
    (by rw [hv]; exact hs) (by rw [hv]; rfl)
    (by rw [hv]; exact ht) (Nat.le_trans hn (Nat.le_add_right _ _))
  rw [hto] at hr
  have hi : (view (tick resetHeld m)).ignoreReset = 0 := by rw [hv]; rfl
  refine ⟨congrArg View.state hr, ?_, ?_⟩
  · exact (congrArg View.kernalIndex hr).trans (congrArg View.kernalIndex hv)
  · have h1 := congrArg View.pulses hr
    simp only [hi, if_true] at h1
    exact h1.trans (by rw [hv]; rfl)

theorem reset_button_press_advances_witness :
    (resetArmed.state = StateType.SELECT ∧ resetArmed.old_button ≠ 0
      ∧ resetArmed.ignoreReset = 1)
    ∧ ((tick resetHeld resetArmed).state = StateType.SELECT
      ∧ (tick resetHeld resetArmed).kernalIndex = (resetArmed.kernalIndex + 1) % 4
      ∧ (tick resetHeld resetArmed).ignoreReset = 0
      ∧ resetPulses (tick resetHeld resetArmed).log = resetPulses resetArmed.log
      ∧ (resetArmed.buttonTimer ≤ 30 → 32 ≤ 32 →
          (run (resetHeld :: List.replicate 32 released) resetArmed).state = StateType.IDLE
            ∧ (run (resetHeld :: List.replicate 32 released) resetArmed).kernalIndex
                = (resetArmed.kernalIndex + 1) % 4
            ∧ resetPulses (run (resetHeld :: List.replicate 32 released) resetArmed).log
                = resetPulses resetArmed.log + 1)) :=
  ⟨by decide, reset_button_press_advances resetArmed 32 (by decide) (by decide)⟩

/-- C19. From `SELECT` with the latch cleared and `buttonTimer = 0`, with both
buttons released on every pass: the first pass only sets the latch
(`buttonTimer` stays 0), the machine is still in `SELECT` with no reset pulse
fired after each of the first 31 passes, and after the 32nd pass it is in
`IDLE`, that pass having fired exactly one reset pulse when `ignoreReset = 0`
and none otherwise. -/
theorem unarmed_commit_on_32nd (m : Machine) (hs : m.state = StateType.SELECT)
    (ho : m.old_button = 0) (ht : m.buttonTimer = 0) :
    ((tick released m).state = StateType.SELECT
        ∧ (tick released m).old_button = 1
        ∧ (tick released m).buttonTimer = 0)
      ∧ (∀ n, n ≤ 31 →
          (run (List.replicate n released) m).state = StateType.SELECT
            ∧ resetPulses (run (List.replicate n released) m).log = resetPulses m.log)
      ∧ (run (List.replicate 32 released) m).state = StateType.IDLE
      ∧ resetPulses (run (List.replicate 32 released) m).log
          = (if m.ignoreReset = 0 then resetPulses m.log + 1 else resetPulses m.log) := by
  have hv := view_tick released m
  rw [viewStep_arm (view m) hs ho] at hv
  have h32 := view_run (List.replicate 32 released) m
  have ht30 : (view m).buttonTimer ≤ 30 := by
    rw [show (view m).buttonTimer = 0 from ht]; exact Nat.zero_le _
  rw [viewRun_unarmed_timeout (view m) 32 hs ho ht30 (Nat.le_add_right _ _)] at h32
  refine ⟨⟨(congrArg View.state hv).trans hs, congrArg View.old_button hv,
    (congrArg View.buttonTimer hv).trans ht⟩, ?_, congrArg View.state h32,
    congrArg View.pulses h32⟩
  intro n hn
  have hsh := viewRun_unarmed_short (view m) n hs ho ht (by omega)
  rw [← view_run] at hsh
  exact ⟨hsh.1, hsh.2.1⟩

theorem unarmed_commit_on_32nd_witness :
    (holdEntry.state = StateType.SELECT ∧ holdEntry.old_button = 0
      ∧ holdEntry.buttonTimer = 0)
    ∧ (((tick released holdEntry).state = StateType.SELECT
        ∧ (tick released holdEntry).old_button = 1
        ∧ (tick released holdEntry).buttonTimer = 0)
      ∧ (∀ n, n ≤ 31 →
          (run (List.replicate n released) holdEntry).state = StateType.SELECT
            ∧ resetPulses (run (List.replicate n released) holdEntry).log
                = resetPulses holdEntry.log)
      ∧ (run (List.replicate 32 released) holdEntry).state = StateType.IDLE
      ∧ resetPulses (run (List.replicate 32 released) holdEntry).log
          = (if holdEntry.ignoreReset = 0 then resetPulses holdEntry.log + 1
             else resetPulses holdEntry.log)) :=
  ⟨by decide, unarmed_commit_on_32nd holdEntry (by decide) (by decide) (by decide)⟩

theorem viewStep_store (p : Pins) (v : View) :
    (viewStep p v).redInverted = v.redInverted
      ∧ (((viewStep p v).writes = v.writes ∧ (viewStep p v).eeprom = v.eeprom)
        ∨ ∃ k, (viewStep p v).writes = v.writes ++ [(0, k)]
            ∧ (viewStep p v).eeprom = Function.update v.eeprom 0 k) := by
  unfold viewStep
  cases hs : v.state <;> simp only [] <;> repeat' split
  all_goals first
    | exact ⟨rfl, Or.inl ⟨rfl, rfl⟩⟩
    | (unfold viewSetKernal
       refine ⟨rfl, ?_⟩
       by_cases hc : (v.kernalIndex + 1) % 256 &&& 3 = v.oldKernalIndex
       · left; simp [hc]
       · right; exact ⟨(v.kernalIndex + 1) % 256 &&& 3, by simp [hc], by simp [hc]⟩)

/-- C18. One main-loop pass, in any state and for any pin sample, leaves
`redInverted` unchanged and, for every EEPROM address other than 0 (address 2
in particular), writes nothing to it and leaves its byte unchanged. A pass
taken in `IDLE` moreover leaves `kernalIndex`, the address lines and the whole
EEPROM unchanged, writes nothing to the EEPROM and fires no reset pulse. -/
theorem tick_frame (p : Pins) (m : Machine) :
    (tick p m).redInverted = m.redInverted
      ∧ writesTo 2 (tick p m).log = writesTo 2 m.log
      ∧ (∀ a, a ≠ 0 →
          writesTo a (tick p m).log = writesTo a m.log ∧ (tick p m).eeprom a = m.eeprom a)
      ∧ (m.state = StateType.IDLE →
          (tick p m).kernalIndex = m.kernalIndex
            ∧ A13 (tick p m) = A13 m ∧ A14 (tick p m) = A14 m
            ∧ (tick p m).eeprom = m.eeprom
            ∧ eepromWrites (tick p m).log = eepromWrites m.log
            ∧ resetPulses (tick p m).log = resetPulses m.log) := by
  have hv := view_tick p m
  obtain ⟨h1, h2⟩ := viewStep_store p (view m)
  rw [← hv] at h1 h2
  have hw : ∀ a, a ≠ 0 →
      writesTo a (tick p m).log = writesTo a m.log ∧ (tick p m).eeprom a = m.eeprom a := by
    intro a ha
    have ha2 : ¬ 0 = a := fun e => ha e.symm
    rcases h2 with ⟨w, e⟩ | ⟨k, w, e⟩
    · have w2 : eepromWrites (tick p m).log = eepromWrites m.log := w
      have e2 : (tick p m).eeprom = m.eeprom := e
      simp [writesTo, w2, e2]
    · have w2 : eepromWrites (tick p m).log = eepromWrites m.log ++ [(0, k)] := w
      have e2 : (tick p m).eeprom = Function.update m.eeprom 0 k := e
      simp [writesTo, w2, e2, ha, ha2]
  refine ⟨h1, (hw 2 (by decide)).1, hw, ?_⟩
  intro hs
  rw [viewStep_idle p (view m) hs] at hv
  by_cases hc : p.INTRST_N = false ∨ (p.RESTORE_N = false ∧ ((view m).buttonTimer + 1) % 256 > 15)
  · rw [if_pos hc] at hv
    exact ⟨congrArg View.kernalIndex hv, congrArg View.a13 hv, congrArg View.a14 hv,
      congrArg View.eeprom hv, congrArg View.writes hv, congrArg View.pulses hv⟩
  · rw [if_neg hc] at hv
    exact ⟨congrArg View.kernalIndex hv, congrArg View.a13 hv, congrArg View.a14 hv,
      congrArg View.eeprom hv, congrArg View.writes hv, congrArg View.pulses hv⟩

theorem tick_frame_witness :
    bootZero.state = StateType.IDLE
    ∧ ((tick restoreHeld bootZero).redInverted = bootZero.redInverted
      ∧ writesTo 2 (tick restoreHeld bootZero).log = writesTo 2 bootZero.log
      ∧ (∀ a, a ≠ 0 →
          writesTo a (tick restoreHeld bootZero).log = writesTo a bootZero.log
            ∧ (tick restoreHeld bootZero).eeprom a = bootZero.eeprom a)
      ∧ (bootZero.state = StateType.IDLE →
          (tick restoreHeld bootZero).kernalIndex = bootZero.kernalIndex
            ∧ A13 (tick restoreHeld bootZero) = A13 bootZero
            ∧ A14 (tick restoreHeld bootZero) = A14 bootZero
            ∧ (tick restoreHeld bootZero).eeprom = bootZero.eeprom
            ∧ eepromWrites (tick restoreHeld bootZero).log = eepromWrites bootZero.log
            ∧ resetPulses (tick restoreHeld bootZero).log = resetPulses bootZero.log)) :=
  ⟨by decide, tick_frame restoreHeld bootZero⟩

theorem viewBound_viewStep (p : Pins) (v : View) (h : viewBound v) :
    viewBound (viewStep p v) := by
  obtain ⟨h1, h2⟩ := h
  unfold viewStep
  cases hs : v.state with
  | IDLE =>
    have hb := h1 hs
    simp only []
    repeat' split
    all_goals
      refine ⟨fun hi => ?_, fun hsel => ?_⟩
      all_goals simp_all
  | SELECT =>
    have hb := h2 hs
    simp only []
    repeat' split
    all_goals
      refine ⟨fun hi => ?_, fun hsel => ?_⟩
      all_goals simp_all [viewSetKernal]

theorem viewBound_viewRun (ps : List Pins) (v : View) (h : viewBound v) :
    viewBound (viewRun ps v) := by
  induction ps generalizing v with
  | nil => exact h
  | cons p ps ih => exact ih _ (viewBound_viewStep p v h)

theorem viewBound_boot (rom : Nat → Nat) (restoreN : Bool) :
    viewBound (viewTheme restoreN (bootView rom)) := by
  cases restoreN <;> simp [viewBound, viewTheme, bootView]

/-- C20. In every state reached from power-on by startup followed by any number
of main-loop passes, `buttonTimer` is at most 15 when the state is `IDLE` and
at most 30 when it is `SELECT`; so it is below 256 and its next increment does
not wrap: `(buttonTimer + 1) % 256 = buttonTimer + 1`. -/
theorem timer_bounded (rom : Nat → Nat) (gpio : Nat) (restoreN : Bool) (polls : List Bool)
    (s0 : Machine) (trace : List Pins) (h : startup rom gpio restoreN polls = some s0) :
    ((run trace s0).state = StateType.IDLE → (run trace s0).buttonTimer ≤ 15)
      ∧ ((run trace s0).state = StateType.SELECT → (run trace s0).buttonTimer ≤ 30)
      ∧ (run trace s0).buttonTimer ≤ 30
      ∧ ((run trace s0).buttonTimer + 1) % 256 = (run trace s0).buttonTimer + 1 := by
  have hv : viewBound (view (run trace s0)) := by
    rw [view_run, startup_view rom gpio restoreN polls s0 h]
    exact viewBound_viewRun _ _ (viewBound_boot rom restoreN)
  obtain ⟨h1, h2⟩ := hv
  have h1m : (run trace s0).state = StateType.IDLE → (run trace s0).buttonTimer ≤ 15 := h1
  have h2m : (run trace s0).state = StateType.SELECT → (run trace s0).buttonTimer ≤ 30 := h2
  have h3 : (run trace s0).buttonTimer ≤ 30 := by
    cases hs : (run trace s0).state with
    | IDLE => exact Nat.le_trans (h1m hs) (by decide)
    | SELECT => exact h2m hs
  refine ⟨h1m, h2m, h3, ?_⟩
  omega

theorem timer_bounded_witness :
    startup (fun _ => 255) 0 true [] = some (Init (powerOn (fun _ => 255) 0))
    ∧ (((run shortPressTrace (Init (powerOn (fun _ => 255) 0))).state = StateType.IDLE →
        (run shortPressTrace (Init (powerOn (fun _ => 255) 0))).buttonTimer ≤ 15)
      ∧ ((run shortPressTrace (Init (powerOn (fun _ => 255) 0))).state = StateType.SELECT →
        (run shortPressTrace (Init (powerOn (fun _ => 255) 0))).buttonTimer ≤ 30)
      ∧ (run shortPressTrace (Init (powerOn (fun _ => 255) 0))).buttonTimer ≤ 30
      ∧ ((run shortPressTrace (Init (powerOn (fun _ => 255) 0))).buttonTimer + 1) % 256
          = (run shortPressTrace (Init (powerOn (fun _ => 255) 0))).buttonTimer + 1) :=
  ⟨rfl, timer_bounded (fun _ => 255) 0 true [] _ shortPressTrace rfl⟩

end C64MultiKernel
